import Mathlib

/-!
Verification of the wave-based tower-defense simulation engine
(Plants-vs-Zombies style game server).

The definitions below are a shallow embedding of the game engine source:
the `WaveManager` and `PlantsVsZombiesEngine` classes (game-engine module)
and the static `GAME_CONFIG` table (game configuration module).

Modelling conventions:
* JS millisecond timestamps and integer quantities (sun, health, damage,
  scores) are `Int`; continuous quantities (positions `x`/`y`, speeds,
  effect strengths) are `Rat`.
* `uuidv4()` identifiers are modelled as caller-supplied `Nat` ids,
  and `Date.now()` as an explicit `now : Int` argument.
* The JS `players` object is a list of players (insertion order),
  looked up by id; `Object.values` iteration is list iteration.
* Fallible command handlers (`placePlant`, `usePowerup`) throw in JS;
  they are embedded as state-threaded functions returning
  `Except Err α × GameState`, mirroring the source order of checks and
  mutations, so that an error result carries exactly the state at the
  moment of the throw.
-/

/-! ## Static configuration (GAME_CONFIG) -/

/-- Board dimensions from GAME_CONFIG.BOARD: 5 lanes by 9 columns. -/
def BOARD_ROWS : Int := 5

/-- Board columns from GAME_CONFIG.BOARD. -/
def BOARD_COLS : Int := 9

/-- GAME_CONFIG.GAMEPLAY.INITIAL_SUN. -/
def INITIAL_SUN : Int := 50

/-- GAME_CONFIG.GAMEPLAY.SUN_FALL_AMOUNT. -/
def SUN_FALL_AMOUNT : Int := 25

/-- Per-type plant parameters from GAME_CONFIG.PLANTS (fields absent in a
config entry are `none`, matching `undefined` in JS). -/
structure PlantData where
  cost : Int
  health : Int
  damage : Option Int := none
  fireRate : Option Int := none
  projectileSpeed : Option Rat := none
  sunProduction : Option Int := none
  sunInterval : Option Int := none
  range : Option Int := none
  slowEffect : Option Rat := none
  slowDuration : Option Int := none
  explosionRadius : Option Rat := none
  fuseTime : Option Int := none
  deriving Repr, DecidableEq

/-- GAME_CONFIG.PLANTS as an association list keyed by the display glyph. -/
def PLANTS : List (String × PlantData) :=
  [ ("🌻", { cost := 50, health := 300, sunProduction := some 25, sunInterval := some 24000 }),
    ("🌱", { cost := 100, health := 300, damage := some 20, fireRate := some 1400,
             projectileSpeed := some 5 }),
    ("❄️", { cost := 175, health := 300, damage := some 20, fireRate := some 1400,
             projectileSpeed := some 5, slowEffect := some (1/2), slowDuration := some 3000 }),
    ("🌰", { cost := 50, health := 4000 }),
    ("🍒", { cost := 150, health := 1, damage := some 1800,
             explosionRadius := some (3/2), fuseTime := some 1500 }),
    ("🌶️", { cost := 125, health := 1, damage := some 1800, fuseTime := some 2000 }),
    ("🌵", { cost := 125, health := 300, damage := some 20, fireRate := some 1400,
             projectileSpeed := some 5 }),
    ("🍄", { cost := 0, health := 300, damage := some 20, fireRate := some 1400,
             range := some 3 }) ]

/-- Per-type zombie parameters from GAME_CONFIG.ZOMBIES. -/
structure ZombieData where
  health : Int
  speed : Rat
  damage : Int
  attackRate : Int
  points : Int
  deriving Repr, DecidableEq

/-- GAME_CONFIG.ZOMBIES as an association list keyed by the display glyph. -/
def ZOMBIES : List (String × ZombieData) :=
  [ ("🧟", { health := 200, speed := 8, damage := 100, attackRate := 1000, points := 10 }),
    ("🧟‍♂️", { health := 640, speed := 6, damage := 100, attackRate := 1000, points := 20 }),
    ("🧟‍♀️", { health := 1370, speed := 5, damage := 100, attackRate := 1000, points := 30 }),
    ("🏃‍♂️", { health := 200, speed := 18, damage := 100, attackRate := 1000, points := 15 }),
    ("🦘", { health := 500, speed := 25, damage := 100, attackRate := 1000, points := 25 }),
    ("🎈", { health := 280, speed := 20, damage := 100, attackRate := 1000, points := 35 }),
    ("👑", { health := 3000, speed := 8, damage := 200, attackRate := 800, points := 100 }) ]

/-- Wave configuration from GAME_CONFIG.WAVES; only the nominal duration is
needed by the verified operations (timelines and pools drive spawning,
which is modelled through explicit spawn operations). -/
structure WaveCfg where
  duration : Int
  deriving Repr, DecidableEq

/-- Durations of the five configured waves (GAME_CONFIG.WAVES). -/
def WAVES : List WaveCfg :=
  [ { duration := 30000 }, { duration := 35000 }, { duration := 40000 },
    { duration := 45000 }, { duration := 60000 } ]

/-- Per-type powerup parameters from GAME_CONFIG.POWERUPS. -/
structure PowerupData where
  effect : String
  amount : Int := 0
  multiplier : Rat := 1
  duration : Int
  cooldown : Int
  deriving Repr, DecidableEq

/-- GAME_CONFIG.POWERUPS as an association list keyed by the display glyph. -/
def POWERUPS : List (String × PowerupData) :=
  [ ("☀️", { effect := "sun", amount := 100, duration := 0, cooldown := 60000 }),
    ("⚡", { effect := "speed", multiplier := 2, duration := 10000, cooldown := 90000 }),
    ("🛡️", { effect := "shield", multiplier := 2, duration := 15000, cooldown := 120000 }),
    ("💥", { effect := "damage", multiplier := 3, duration := 12000, cooldown := 100000 }) ]

/-! ## Entity model -/

/-- A timed effect attached to a zombie (applyEffectToZombie). -/
structure ZEffect where
  etype : String
  strength : Rat
  endTime : Int
  deriving Repr, DecidableEq

/-- A zombie entity (spawnZombie literal). -/
structure Zombie where
  id : Nat
  ztype : String
  row : Int
  col : Int
  x : Rat
  health : Int
  maxHealth : Int
  speed : Rat
  damage : Int
  lastAttack : Int
  attackRate : Int
  points : Int
  effects : List ZEffect
  spawnedAt : Int
  deriving Repr, DecidableEq

/-- An effect carried by a projectile (plantShoot pushes a slow effect for
the snow pea). -/
structure PEffect where
  etype : String
  strength : Rat
  duration : Int
  deriving Repr, DecidableEq

/-- A projectile entity (plantShoot literal). -/
structure Projectile where
  id : Nat
  ptype : String
  x : Rat
  y : Rat
  targetX : Int
  targetY : Int
  speed : Rat
  damage : Int
  effects : List PEffect
  createdAt : Int
  remove : Bool := false
  deriving Repr, DecidableEq

/-- A plant entity (placePlant literal); the spread of the config entry
into the plant object is modelled by the `pdata` field. -/
structure Plant where
  id : Nat
  ptype : String
  row : Int
  col : Int
  ownerId : String
  health : Int
  maxHealth : Int
  lastShot : Int
  lastSunProduction : Int
  plantedAt : Int
  pdata : PlantData
  deriving Repr, DecidableEq

/-- A lawn mower (initializeLawnMowers literal); the uuid is dropped. -/
structure Mower where
  row : Int
  col : Int := 0
  active : Bool
  triggered : Bool
  deriving Repr, DecidableEq

/-- A player record (createGame / joinGame literal). -/
structure Player where
  id : String
  isHost : Bool
  sun : Int
  score : Int
  plantsPlaced : Nat
  zombiesKilled : Nat
  powerups : List (String × Int)
  deriving Repr, DecidableEq

/-- A board cell (initializeBoard literal). -/
structure Cell where
  row : Int
  col : Int
  plant : Option Plant
  canPlant : Bool
  deriving Repr, DecidableEq

/-- Aggregate statistics (gameState.stats). -/
structure Stats where
  gameStartTime : Int
  totalZombiesSpawned : Nat
  totalPlantsPlaced : Nat
  totalSunCollected : Int
  deriving Repr, DecidableEq

/-- A session-level active effect (applyPowerupEffect pushes these). -/
structure SessionEffect where
  etype : String
  playerId : String
  multiplier : Rat
  endTime : Int
  deriving Repr, DecidableEq

/-- The per-session game state (createGame literal). The final two fields
are not present in the source state object: they model the PauseClock of
the specification (accumulated paused duration and the instant the current
pause began), used only by the spec-modelled pause and resume operations. -/
structure GameState where
  status : String
  players : List Player
  board : List (List Cell)
  plants : List Plant
  zombies : List Zombie
  projectiles : List Projectile
  lawnMowers : List Mower
  currentWave : Nat
  waveInProgress : Bool
  waveStartTime : Int
  nextWaveTime : Int
  sunFallTimer : Int
  activeEffects : List SessionEffect
  stats : Stats
  pausedAt : Int := 0
  pauseOffset : Int := 0
  deriving Repr, DecidableEq

/-- The per-session wave-manager state (WaveManager constructor); only the
fields read by isWaveComplete are carried. -/
structure WaveM where
  currentWaveIndex : Nat
  waveStartTime : Int
  deriving Repr, DecidableEq

/-! ## Basic helpers -/

/-- Look up a player by id (gameState.players[playerId]). -/
def findPlayer (ps : List Player) (pid : String) : Option Player :=
  ps.find? (fun p => p.id == pid)

/-- Apply a function to the player with the given id. -/
def mapPlayer (ps : List Player) (pid : String) (f : Player → Player) : List Player :=
  ps.map (fun p => if p.id == pid then f p else p)

/-- Board lookup with JS out-of-range semantics (undefined becomes none). -/
def getCell (b : List (List Cell)) (row col : Int) : Option Cell :=
  if row < 0 || col < 0 then none
  else (b.get? row.toNat).bind (fun r => r.get? col.toNat)

/-- Whether a board cell holds a plant (gameState.board[row][col].plant). -/
def cellHasPlant (b : List (List Cell)) (row col : Int) : Bool :=
  match getCell b row col with
  | some c => c.plant.isSome
  | none => false

/-- Write the plant slot of a board cell (in-range callers only). -/
def setCellPlant (b : List (List Cell)) (row col : Int) (pl : Option Plant) :
    List (List Cell) :=
  if row < 0 || col < 0 then b
  else
    match b.get? row.toNat with
    | none => b
    | some r =>
      match r.get? col.toNat with
      | none => b
      | some cell => b.set row.toNat (r.set col.toNat { cell with plant := pl })

/-- initializeBoard: a ROWS by COLS grid; planting is disallowed in the
lawn-mower column (canPlant is col strictly positive). -/
def mkBoard : List (List Cell) :=
  (List.range 5).map (fun r =>
    (List.range 9).map (fun c =>
      { row := (r : Int), col := (c : Int), plant := none, canPlant := decide (0 < c) }))

/-- initializeLawnMowers: one active, untriggered mower per lane at column 0. -/
def mkLawnMowers : List Mower :=
  (List.range 5).map (fun r => { row := (r : Int), active := true, triggered := false })

/-- The player record given to the host on createGame and to joiners. -/
def mkPlayer (pid : String) (host : Bool) : Player :=
  { id := pid, isHost := host, sun := INITIAL_SUN, score := 0,
    plantsPlaced := 0, zombiesKilled := 0, powerups := [] }

/-- createGame: the initial session state for a host player. -/
def createGameState (hostId : String) (now : Int) : GameState :=
  { status := "waiting", players := [mkPlayer hostId true], board := mkBoard,
    plants := [], zombies := [], projectiles := [], lawnMowers := mkLawnMowers,
    currentWave := 0, waveInProgress := false, waveStartTime := 0,
    nextWaveTime := 0, sunFallTimer := now + 10000, activeEffects := [],
    stats := { gameStartTime := now, totalZombiesSpawned := 0,
               totalPlantsPlaced := 0, totalSunCollected := 0 } }

/-! ## Kill crediting and lawn mowers -/

/-- killZombie: awards the zombie's point value to every player in the
session, increments every player's kill counter, and forces the zombie's
health to 0 (the external counter and lane-tracking calls are outside the
simulation state). -/
def killZombie (st : GameState) (z : Zombie) : GameState :=
  { st with
    players := st.players.map (fun p =>
      { p with score := p.score + z.points, zombiesKilled := p.zombiesKilled + 1 }),
    zombies := st.zombies.map (fun w => if w.id == z.id then { w with health := 0 } else w) }

/-- gameState.lawnMowers[row] with JS out-of-range semantics. -/
def mowerAt (st : GameState) (row : Int) : Option Mower :=
  if row < 0 then none else st.lawnMowers.get? row.toNat

/-- triggerLawnMower: if the lane's mower exists, is active and has not yet
triggered, mark it triggered and kill every zombie alive in that lane;
otherwise do nothing. -/
def triggerLawnMower (st : GameState) (row : Int) : GameState :=
  match mowerAt st row with
  | none => st
  | some m =>
    if m.active && !m.triggered then
      let st1 := { st with
        lawnMowers := st.lawnMowers.set row.toNat { m with triggered := true } }
      (st.zombies.filter (fun z => z.row == row && decide (0 < z.health))).foldl killZombie st1
    else st

/-- The branch of updateZombies taken when a zombie's position has reached
the house (zombie.x less or equal 0): trigger the lane's mower, then force
the zombie's health to 0. -/
def reachHouse (st : GameState) (zid : Nat) : GameState :=
  match st.zombies.find? (fun z => z.id == zid) with
  | none => st
  | some z =>
    let st1 := triggerLawnMower st z.row
    { st1 with zombies := st1.zombies.map (fun w =>
        if w.id == zid then { w with health := 0 } else w) }

/-! ## Spawning and economy -/

/-- spawnZombie: silently returns the state unchanged when the type is not
in the ZOMBIES table; otherwise appends a fresh zombie at the rightmost
column and increments the spawn counter. -/
def spawnZombie (st : GameState) (ztype : String) (row : Int) (fresh : Nat) (now : Int) :
    GameState :=
  match ZOMBIES.lookup ztype with
  | none => st
  | some zd =>
    let col : Int := BOARD_COLS - 1
    let z : Zombie :=
      { id := fresh, ztype := ztype, row := row, col := col, x := (col : Rat),
        health := zd.health, maxHealth := zd.health, speed := zd.speed,
        damage := zd.damage, lastAttack := 0, attackRate := zd.attackRate,
        points := zd.points, effects := [], spawnedAt := now }
    { st with zombies := st.zombies ++ [z],
              stats := { st.stats with
                totalZombiesSpawned := st.stats.totalZombiesSpawned + 1 } }

/-- spawnSun: adds the fixed fall amount to every player, counting each
grant in the aggregate statistics. -/
def spawnSun (st : GameState) : GameState :=
  { st with
    players := st.players.map (fun p => { p with sun := p.sun + SUN_FALL_AMOUNT }),
    stats := { st.stats with totalSunCollected :=
      st.stats.totalSunCollected + SUN_FALL_AMOUNT * (st.players.length : Int) } }

/-- The distinct throw sites of placePlant, in source order. -/
inductive PlaceErr
  | invalidGameState
  | playerNotFound
  | invalidPlantType
  | invalidPosition
  | occupied
  | notEnoughSun
  deriving Repr, DecidableEq

/-- placePlant: validation in source order (game playing, player known,
plant type known, position in bounds and outside the mower column, cell
free, sun sufficient), then the mutation block (board write, plants list,
sun debit, placement counters). An error result carries the state exactly
as it was at the throw. -/
def placePlant (st : GameState) (pid ptype : String) (row col : Int) (fresh : Nat)
    (now : Int) : Except PlaceErr Plant × GameState :=
  if st.status != "playing" then (.error .invalidGameState, st)
  else
    match findPlayer st.players pid with
    | none => (.error .playerNotFound, st)
    | some player =>
      match PLANTS.lookup ptype with
      | none => (.error .invalidPlantType, st)
      | some pd =>
        if row < 0 || BOARD_ROWS ≤ row || col < 1 || BOARD_COLS ≤ col then
          (.error .invalidPosition, st)
        else if cellHasPlant st.board row col then (.error .occupied, st)
        else if player.sun < pd.cost then (.error .notEnoughSun, st)
        else
          let plant : Plant :=
            { id := fresh, ptype := ptype, row := row, col := col, ownerId := pid,
              health := pd.health, maxHealth := pd.health, lastShot := 0,
              lastSunProduction := now, plantedAt := now, pdata := pd }
          (.ok plant,
            { st with board := setCellPlant st.board row col (some plant),
                      plants := st.plants ++ [plant],
                      players := mapPlayer st.players pid (fun p =>
                        { p with sun := p.sun - pd.cost,
                                 plantsPlaced := p.plantsPlaced + 1 }),
                      stats := { st.stats with
                        totalPlantsPlaced := st.stats.totalPlantsPlaced + 1 } })

/-- Write or insert a key in a JS-object-as-list (player.powerups[k] = v). -/
def setEntry (l : List (String × Int)) (k : String) (v : Int) : List (String × Int) :=
  if l.any (fun e => e.1 == k) then l.map (fun e => if e.1 == k then (k, v) else e)
  else l ++ [(k, v)]

/-- The distinct throw sites of usePowerup, in source order. -/
inductive PowerErr
  | invalidGameState
  | playerNotFound
  | invalidPowerupType
  | onCooldown
  deriving Repr, DecidableEq

/-- applyPowerupEffect: instant sun grant, or a timed session effect. -/
def applyPowerupEffect (st : GameState) (pid : String) (pu : PowerupData) (now : Int) :
    GameState :=
  if pu.effect == "sun" then
    { st with players := mapPlayer st.players pid (fun p => { p with sun := p.sun + pu.amount }) }
  else if pu.effect == "speed" then
    { st with activeEffects := st.activeEffects ++
        [{ etype := "speed_boost", playerId := pid, multiplier := pu.multiplier,
           endTime := now + pu.duration }] }
  else if pu.effect == "shield" then
    { st with activeEffects := st.activeEffects ++
        [{ etype := "plant_shield", playerId := pid, multiplier := pu.multiplier,
           endTime := now + pu.duration }] }
  else if pu.effect == "damage" then
    { st with activeEffects := st.activeEffects ++
        [{ etype := "damage_boost", playerId := pid, multiplier := pu.multiplier,
           endTime := now + pu.duration }] }
  else st

/-- usePowerup: validation in source order; the cooldown gate compares the
raw wall-clock difference now minus last-used against the configured
cooldown; on success the effect is applied and the last-used stamp set. -/
def usePowerup (st : GameState) (pid ptype : String) (now : Int) :
    Except PowerErr PowerupData × GameState :=
  if st.status != "playing" then (.error .invalidGameState, st)
  else
    match findPlayer st.players pid with
    | none => (.error .playerNotFound, st)
    | some player =>
      match POWERUPS.lookup ptype with
      | none => (.error .invalidPowerupType, st)
      | some pu =>
        let lastUsed := (player.powerups.lookup ptype).getD 0
        if now - lastUsed < pu.cooldown then (.error .onCooldown, st)
        else
          let st1 := applyPowerupEffect st pid pu now
          (.ok pu,
            { st1 with players := mapPlayer st1.players pid (fun p =>
                { p with powerups := setEntry p.powerups ptype now }) })

/-! ## Combat -/

/-- Eligibility filter of findZombieTarget: same lane, alive, and column
within the plant's range ahead of it (range defaults to 10). -/
def eligibleTarget (plant : Plant) (z : Zombie) : Bool :=
  z.row == plant.row && decide (0 < z.health) && decide (plant.col ≤ z.col) &&
    decide (z.col ≤ plant.col + plant.pdata.range.getD 10)

/-- findZombieTarget: filter the zombies by eligibility, then reduce with
a null seed keeping the zombie of strictly smaller column. -/
def findZombieTarget (plant : Plant) (zombies : List Zombie) : Option Zombie :=
  (zombies.filter (eligibleTarget plant)).foldl
    (fun closest z =>
      match closest with
      | none => some z
      | some c => if z.col < c.col then some z else some c)
    none

/-- plantShoot: creates a projectile at the plant's cell aimed at the
target, carrying the plant's damage and, for the snow pea, a slow effect. -/
def plantShoot (st : GameState) (plant : Plant) (target : Zombie) (fresh : Nat)
    (now : Int) : GameState :=
  let effs : List PEffect :=
    if plant.ptype == "❄️" then
      [{ etype := "slow", strength := plant.pdata.slowEffect.getD 0,
         duration := plant.pdata.slowDuration.getD 0 }]
    else []
  let pr : Projectile :=
    { id := fresh, ptype := plant.ptype, x := (plant.col : Rat), y := (plant.row : Rat),
      targetX := target.col, targetY := target.row,
      speed := plant.pdata.projectileSpeed.getD 5, damage := plant.pdata.damage.getD 0,
      effects := effs, createdAt := now }
  { st with projectiles := st.projectiles ++ [pr] }

/-- JS Math.abs on rationals. -/
def ratAbs (q : Rat) : Rat := if q < 0 then -q else q

/-- applyEffectToZombie: attach a carried projectile effect with an
absolute expiry stamp. -/
def applyEffectToZombie (z : Zombie) (e : PEffect) (now : Int) : Zombie :=
  { z with effects := z.effects ++
      [{ etype := e.etype, strength := e.strength, endTime := now + e.duration }] }

/-- One projectile of checkCollisions: find the first zombie alive within
half a cell of the projectile in the projectile's lane; apply damage and
carried effects, mark the projectile removed, and credit the kill if the
resulting health is non-positive. -/
def collideStep (now : Int) (acc : GameState × List Projectile) (p : Projectile) :
    GameState × List Projectile :=
  let s := acc.1
  if p.remove then (s, acc.2 ++ [p])
  else
    match s.zombies.find? (fun z =>
        decide (0 < z.health) && decide (ratAbs (z.x - p.x) < 1/2) && z.row == ⌊p.y⌋) with
    | none => (s, acc.2 ++ [p])
    | some z =>
      let z1 := p.effects.foldl (fun w e => applyEffectToZombie w e now)
        { z with health := z.health - p.damage }
      let s1 := { s with zombies := s.zombies.map (fun w => if w.id == z.id then z1 else w) }
      let s2 := if z1.health ≤ 0 then killZombie s1 z1 else s1
      (s2, acc.2 ++ [{ p with remove := true }])

/-- checkCollisions over the projectile list in order. -/
def checkCollisions (st : GameState) (now : Int) : GameState :=
  let acc := st.projectiles.foldl (collideStep now) (st, [])
  { acc.1 with projectiles := acc.2 }

/-! ## Plant tick (production, firing, fuse abilities) -/

/-- removePlant: clear the board cell and remove the first plant with the
matching id from the plants list. -/
def removePlant (st : GameState) (pl : Plant) : GameState :=
  { st with board := setCellPlant st.board pl.row pl.col none,
            plants := st.plants.eraseP (fun p => p.id == pl.id) }

/-- Reduce one zombie's health inside the state by id. -/
def damageZombie (s : GameState) (zid : Nat) (dmg : Int) : GameState :=
  { s with zombies := s.zombies.map (fun w =>
      if w.id == zid then { w with health := w.health - dmg } else w) }

/-- One zombie of an area blast: apply the damage and credit the kill when
the resulting health is non-positive. -/
def blastZombie (dmg : Int) (s : GameState) (z : Zombie) : GameState :=
  let s1 := damageZombie s z.id dmg
  if z.health - dmg ≤ 0 then killZombie s1 z else s1

/-- explodeCherryBomb: damage every zombie within the explosion radius
(the source compares a Euclidean square-root distance to the radius; the
equivalent squared comparison is used here) and remove the bomb. -/
def explodeCherryBomb (st : GameState) (pl : Plant) : GameState :=
  let r := pl.pdata.explosionRadius.getD 0
  let dmg := pl.pdata.damage.getD 0
  let st1 := (st.zombies.filter (fun z =>
      ((z.col - pl.col) * (z.col - pl.col) + (z.row - pl.row) * (z.row - pl.row) : Rat)
        ≤ r * r)).foldl (blastZombie dmg) st
  removePlant st1 pl

/-- explodeJalapeno: damage every zombie sharing the plant's lane and
remove the plant. -/
def explodeJalapeno (st : GameState) (pl : Plant) : GameState :=
  let dmg := pl.pdata.damage.getD 0
  let st1 := (st.zombies.filter (fun z => z.row == pl.row)).foldl (blastZombie dmg) st
  removePlant st1 pl

/-- Sun production of one plant (sunflower branch of updatePlants): when
the production interval has elapsed, credit the owner when present and
stamp the plant's last production time. -/
def prodStep (now : Int) (s : GameState) (pl : Plant) : GameState :=
  match pl.pdata.sunProduction, pl.pdata.sunInterval with
  | some sp, some si =>
    if pl.ptype == "🌻" && sp != 0 && decide (si ≤ now - pl.lastSunProduction) then
      let s1 :=
        match findPlayer s.players pl.ownerId with
        | some _ =>
          { s with players := mapPlayer s.players pl.ownerId (fun p =>
                     { p with sun := p.sun + sp }),
                   stats := { s.stats with
                     totalSunCollected := s.stats.totalSunCollected + sp } }
        | none => s
      { s1 with plants := s1.plants.map (fun q =>
          if q.id == pl.id then { q with lastSunProduction := now } else q) }
    else s
  | _, _ => s

/-- Firing of one plant (shooting branch of updatePlants): when a damage
value is configured and the fire-rate interval has elapsed, acquire a
target and shoot, stamping the last-shot time. -/
def shootStep (now : Int) (fresh : Nat) (s : GameState) (pl : Plant) : GameState :=
  match pl.pdata.damage, pl.pdata.fireRate with
  | some d, some fr =>
    if d != 0 && decide (fr ≤ now - pl.lastShot) then
      match findZombieTarget pl s.zombies with
      | some t =>
        let s1 := plantShoot s pl t fresh now
        { s1 with plants := s1.plants.map (fun q =>
            if q.id == pl.id then { q with lastShot := now } else q) }
      | none => s
    else s
  | _, _ => s

/-- Fuse abilities of one plant (updatePlantSpecialAbilities): cherry bomb
then jalapeno, each firing once its fuse time has elapsed. -/
def fuseStep (now : Int) (s : GameState) (pl : Plant) : GameState :=
  let s1 :=
    match pl.pdata.fuseTime with
    | some ft =>
      if pl.ptype == "🍒" && decide (ft ≤ now - pl.plantedAt) then explodeCherryBomb s pl
      else s
    | none => s
  match pl.pdata.fuseTime with
  | some ft =>
    if pl.ptype == "🌶️" && decide (ft ≤ now - pl.plantedAt) then explodeJalapeno s1 pl
    else s1
  | none => s1

/-- One plant of updatePlants: production, then firing, then fuse
abilities (the source iterates the plants array; iteration is modelled
over the snapshot of the list at tick entry). -/
def plantStep (now : Int) (fresh : Nat) (s : GameState) (pl : Plant) : GameState :=
  fuseStep now (shootStep now fresh (prodStep now s pl) pl) pl

/-- updatePlants over the plants list. -/
def updatePlants (st : GameState) (now : Int) (fresh : Nat) : GameState :=
  st.plants.foldl (plantStep now fresh) st

/-! ## Zombie effects, movement, cleanup -/

/-- updateZombieEffects: drop expired effects; for each surviving slow
effect, multiply the zombie's stored speed field by its strength (the
source mutates zombie.speed inside the filter callback). -/
def updateZombieEffects (z : Zombie) (now : Int) : Zombie :=
  let acc := z.effects.foldl
    (fun (a : List ZEffect × Rat) e =>
      if e.endTime ≤ now then a
      else (a.1 ++ [e], if e.etype == "slow" then a.2 * e.strength else a.2))
    ([], z.speed)
  { z with effects := acc.1, speed := acc.2 }

/-- The hardcoded per-type movement speed of updateZombies (the glacial
pace switch); the stored speed field and active effects are not read. -/
def glacialSpeed (ztype : String) : Rat :=
  if ztype == "🧟" then 1/10
  else if ztype == "🧟‍♂️" then 2/25
  else if ztype == "🧟‍♀️" then 1/20
  else if ztype == "🏃‍♂️" then 1/5
  else if ztype == "🦘" then 3/20
  else if ztype == "🎈" then 3/25
  else if ztype == "👑" then 3/50
  else 1/10

/-- The movement branch of updateZombies: decrement x by the type's
glacial speed times the tick delta and refresh the discretized column. -/
def moveZombieX (z : Zombie) (dt : Rat) : Zombie :=
  let nx := z.x - glacialSpeed z.ztype * dt
  { z with x := nx, col := ⌊nx⌋ }

/-- cleanupEntities: drop dead zombies, removed projectiles, and expired
session effects. -/
def cleanupEntities (st : GameState) (now : Int) : GameState :=
  { st with zombies := st.zombies.filter (fun z => decide (0 < z.health)),
            projectiles := st.projectiles.filter (fun p => !p.remove),
            activeEffects := st.activeEffects.filter (fun e => decide (now < e.endTime)) }

/-! ## Wave completion and end conditions -/

/-- WaveManager.isWaveComplete: the wave's nominal duration has elapsed in
raw wall-clock time since the wave started, and the zombie list is empty
(none models the out-of-range access when the index is past the table). -/
def isWaveComplete (wm : WaveM) (zombies : List Zombie) (now : Int) : Option Bool :=
  (WAVES.get? wm.currentWaveIndex).map (fun w =>
    decide (w.duration ≤ now - wm.waveStartTime) && zombies.isEmpty)

/-- checkGameEnd: victory when every wave is past, no zombies remain and
no wave is in progress; otherwise defeat when no mower is both active and
untriggered; otherwise the session continues. -/
def checkGameEnd (st : GameState) : Option String :=
  if decide (WAVES.length ≤ st.currentWave) && st.zombies.isEmpty && !st.waveInProgress then
    some "victory"
  else if (st.lawnMowers.filter (fun m => m.active && !m.triggered)).isEmpty then
    some "defeat"
  else none

/-! ## Pause and resume (spec-modelled) -/

/-- Modelled from the spec: the engine's pauseGame (absent from the source
tree; only its socket-handler callers and feature documentation are
present). Records the pause start and sets the paused status. -/
def pauseGame (st : GameState) (now : Int) : GameState :=
  { st with status := "paused", pausedAt := now }

/-- Modelled from the spec: the engine's resumeGame (absent from the
source tree). Adds the pause duration to the cumulative paused offset and
shifts every deadline expressed as an absolute wall-clock time (the
next-wave deadline and the sun-accrual deadline) forward by the pause
duration; per-player cooldown stamps and the wave manager's wave start
time are not deadlines and are not adjusted. -/
def resumeGame (st : GameState) (now : Int) : GameState :=
  let d := now - st.pausedAt
  { st with status := "playing",
            pauseOffset := st.pauseOffset + d,
            nextWaveTime := st.nextWaveTime + d,
            sunFallTimer := st.sunFallTimer + d }

/-- Modelled from the spec: effective elapsed time, wall-clock time since
a start instant minus the cumulative paused duration. -/
def effectiveElapsed (now start offset : Int) : Int :=
  now - start - offset

/-! ## Session operations and trajectories

The mutating sub-operations of the per-session loop and command surface,
as an explicit operation type: a session lifetime is a sequence of these
applied to a state. -/

/-- One mutating engine operation. -/
inductive Op
  | place (pid ptype : String) (row col : Int) (fresh : Nat) (now : Int)
  | sunFall
  | plantsTick (now : Int) (fresh : Nat)
  | powerup (pid ptype : String) (now : Int)
  | spawn (ztype : String) (row : Int) (fresh : Nat) (now : Int)
  | reach (zid : Nat)
  | collide (now : Int)
  | cleanup (now : Int)

/-- Apply one engine operation to the session state (command handlers
discard their result value here; an error leaves the threaded state). -/
def applyOp (op : Op) (st : GameState) : GameState :=
  match op with
  | .place pid ptype row col fresh now => (placePlant st pid ptype row col fresh now).2
  | .sunFall => spawnSun st
  | .plantsTick now fresh => updatePlants st now fresh
  | .powerup pid ptype now => (usePowerup st pid ptype now).2
  | .spawn ztype row fresh now => spawnZombie st ztype row fresh now
  | .reach zid => reachHouse st zid
  | .collide now => checkCollisions st now
  | .cleanup now => cleanupEntities st now

/-- All states visited while running a sequence of operations, the start
state included. -/
def trajStates (st : GameState) : List Op → List GameState
  | [] => [st]
  | op :: rest => st :: trajStates (applyOp op st) rest

/-- Number of false-to-true transitions between consecutive entries. -/
def riseCount : List Bool → Nat
  | [] => 0
  | [_] => 0
  | a :: b :: rest => (if !a && b then 1 else 0) + riseCount (b :: rest)

/-- Reference function for the corrected targeting claim: the first
element of the list among those of minimal column. -/
def firstMinByCol : List Zombie → Option Zombie
  | [] => none
  | z :: rest =>
    match firstMinByCol rest with
    | none => some z
    | some m => if m.col < z.col then some m else some z

/-! ## Generic helper lemmas -/

theorem mem_of_lookup_eq_some {β : Type} {l : List (String × β)} {k : String} {v : β}
    (h : l.lookup k = some v) : (k, v) ∈ l := by
  induction l with
  | nil => simp [List.lookup] at h
  | cons e es ih =>
    obtain ⟨a, b⟩ := e
    rw [List.lookup] at h
    by_cases hk : k = a
    · subst hk
      simp at h
      subst h
      exact List.mem_cons_self _ _
    · have : (k == a) = false := by simpa using hk
      rw [this] at h
      exact List.mem_cons_of_mem _ (ih h)

/-- Pairwise monotone boolean trace: a true entry is never followed by a
false entry. -/
def monoTrace : List Bool → Prop
  | [] => True
  | [_] => True
  | a :: b :: rest => (a = true → b = true) ∧ monoTrace (b :: rest)

theorem riseCount_eq_zero_of_head_true (l : List Bool)
    (hmono : monoTrace (true :: l)) : riseCount (true :: l) = 0 := by
  induction l with
  | nil => rfl
  | cons b rest ih =>
    obtain ⟨hab, htail⟩ := hmono
    have hb : b = true := hab rfl
    subst hb
    rw [riseCount]
    have := ih htail
    simp only [Bool.not_true, Bool.false_and]
    rw [if_neg Bool.false_ne_true]
    omega

theorem riseCount_le_one_of_mono (l : List Bool) (hmono : monoTrace l) :
    riseCount l ≤ 1 := by
  induction l with
  | nil => simp [riseCount]
  | cons a rest ih =>
    match rest, hmono with
    | [], _ => simp [riseCount]
    | b :: rest2, hmono =>
      obtain ⟨hab, htail⟩ := hmono
      cases ha : a with
      | true =>
        subst ha
        have hb : b = true := hab rfl
        subst hb
        have h0 := riseCount_eq_zero_of_head_true (true :: rest2) (by exact ⟨fun _ => rfl, htail⟩)
        omega
      | false =>
        subst ha
        cases hb : b with
        | true =>
          subst hb
          have h0 := riseCount_eq_zero_of_head_true rest2 htail
          rw [riseCount]
          simp only [Bool.not_false, Bool.true_and]
          rw [if_pos trivial]
          omega
        | false =>
          subst hb
          have hrest := ih htail
          rw [riseCount]
          simp only [Bool.not_false, Bool.true_and]
          rw [if_neg (by simp)]
          omega

/-- Fold preservation with membership information about the folded list. -/
theorem foldl_preserve_mem {α β : Type} (P : α → Prop) (f : α → β → α) :
    ∀ (l : List β) (s : α), (∀ s2 b, b ∈ l → P s2 → P (f s2 b)) → P s → P (l.foldl f s) := by
  intro l
  induction l with
  | nil => intro s _ hs; exact hs
  | cons b rest ih =>
    intro s hstep hs
    exact ih (f s b) (fun s2 c hc h2 => hstep s2 c (List.mem_cons_of_mem _ hc) h2)
      (hstep s b (List.mem_cons_self _ _) hs)

/-! ## Claim C10: unknown attacker type is a silent no-op -/

/-- Claim C10: for every session state, lane and type identifier not in
the attacker parameter table, spawnZombie is a silent no-op: it reports no
error (the function is total and has no error channel), adds no attacker,
and leaves the spawn statistics and all other session state unchanged. -/
theorem c10_spawn_unknown_type_noop (st : GameState) (ztype : String) (row : Int)
    (fresh : Nat) (now : Int) (h : ZOMBIES.lookup ztype = none) :
    spawnZombie st ztype row fresh now = st := by
  unfold spawnZombie
  rw [h]

/-- Witness for C10 at a concrete state and the unknown type 🤖. -/
theorem c10_spawn_unknown_type_noop_witness :
    spawnZombie (createGameState "p1" 0) "🤖" 2 7 123 = createGameState "p1" 0 :=
  c10_spawn_unknown_type_noop (createGameState "p1" 0) "🤖" 2 7 123 (by rfl)

/-! ## Claim C2: wave completion -/

/-- Claim C2: isWaveComplete returns true exactly when the current wave's
nominal duration has elapsed since the wave started and the session's
attacker collection is empty; whenever any attacker is present it returns
false regardless of elapsed time. -/
theorem c2_wave_complete_iff (wm : WaveM) (zs : List Zombie) (now : Int) (w : WaveCfg)
    (h : WAVES.get? wm.currentWaveIndex = some w) :
    (isWaveComplete wm zs now = some true ↔
      (w.duration ≤ now - wm.waveStartTime ∧ zs = [])) ∧
    (zs ≠ [] → isWaveComplete wm zs now = some false) := by
  unfold isWaveComplete
  rw [h]
  constructor
  · simp [List.isEmpty_iff]
  · intro hne
    simp [List.isEmpty_iff, hne]

/-- Witness for C2: wave 0 (duration 30000) completes at 30000 with no
zombies, and does not complete at 29999, nor at 30000 with a zombie. -/
theorem c2_wave_complete_iff_witness :
    (isWaveComplete ⟨0, 0⟩ [] 30000 = some true ↔
      ((30000 : Int) ≤ 30000 - 0 ∧ ([] : List Zombie) = [])) ∧
    (([] : List Zombie) ≠ [] → isWaveComplete ⟨0, 0⟩ [] 30000 = some false) :=
  c2_wave_complete_iff ⟨0, 0⟩ [] 30000 ⟨30000⟩ (by rfl)

/-! ## Claim C7: end conditions -/

/-- Claim C7 (amended): checkGameEnd reports victory exactly when the wave
index has passed the last wave, no attackers remain and no wave is in
progress; it reports defeat exactly when no sweeper is active and
untriggered AND the victory condition does not hold, because the victory
branch is evaluated first. -/
theorem c7_end_conditions (st : GameState) :
    (checkGameEnd st = some "victory" ↔
      (WAVES.length ≤ st.currentWave ∧ st.zombies = [] ∧ st.waveInProgress = false)) ∧
    (checkGameEnd st = some "defeat" ↔
      ((st.lawnMowers.filter (fun m => m.active && !m.triggered)) = [] ∧
       ¬(WAVES.length ≤ st.currentWave ∧ st.zombies = [] ∧ st.waveInProgress = false))) := by
  unfold checkGameEnd
  by_cases h1 : (WAVES.length ≤ st.currentWave ∧ st.zombies = [] ∧ st.waveInProgress = false)
  · rw [if_pos]
    · simp [h1]
    · simp [List.isEmpty_iff, h1.1, h1.2.1, h1.2.2]
  · rw [if_neg]
    · by_cases h2 : (st.lawnMowers.filter (fun m => m.active && !m.triggered)) = []
      · rw [if_pos (by simp [List.isEmpty_iff, h2])]
        simp [h1, h2]
      · rw [if_neg (by simp [List.isEmpty_iff, h2])]
        simp [h1, h2]
    · simp only [Bool.and_eq_true, decide_eq_true_eq, List.isEmpty_iff, Bool.not_eq_true']
      intro hcon
      exact h1 ⟨hcon.1.1, hcon.1.2, hcon.2⟩

/-- A session state in which both the victory condition and the
all-sweepers-exhausted condition hold simultaneously. -/
def c7State : GameState :=
  { createGameState "p1" 0 with
      status := "playing", currentWave := 5,
      lawnMowers := mkLawnMowers.map (fun m => { m with triggered := true }) }

/-- Counterexample for C7 as stated: in c7State every sweeper is
triggered, so the claim's defeat-iff condition holds, yet checkGameEnd
reports victory (the victory branch is evaluated first), not defeat. -/
theorem c7_counterexample :
    (c7State.lawnMowers.filter (fun m => m.active && !m.triggered)) = [] ∧
    checkGameEnd c7State = some "victory" ∧
    checkGameEnd c7State ≠ some "defeat" := by
  refine ⟨by decide, by decide, by decide⟩

/-! ## Claim C8: occupied cell and mower column rejections -/

/-- Claim C8: a placement command aimed at the non-plantable mower column
fails with the invalid-position reason, and one aimed at an occupied cell
fails with the occupied reason; in both cases the returned session state
is exactly the input state: no defender inserted, board untouched, sun and
placement count unmodified. -/
theorem c8_place_rejects_unchanged (st : GameState) (pid ptype : String)
    (row col : Int) (fresh : Nat) (now : Int)
    (hplay : st.status = "playing")
    (hp : (findPlayer st.players pid).isSome = true)
    (hpd : (PLANTS.lookup ptype).isSome = true)
    (hrow0 : 0 ≤ row) (hrow1 : row < BOARD_ROWS) (hcol1 : col < BOARD_COLS) :
    (col = 0 → placePlant st pid ptype row col fresh now = (.error .invalidPosition, st)) ∧
    (1 ≤ col → cellHasPlant st.board row col = true →
      placePlant st pid ptype row col fresh now = (.error .occupied, st)) := by
  obtain ⟨player, hp⟩ := Option.isSome_iff_exists.mp hp
  obtain ⟨pd, hpd⟩ := Option.isSome_iff_exists.mp hpd
  constructor
  · intro hc0
    subst hc0
    simp only [placePlant, hplay, hp, hpd, BOARD_ROWS, BOARD_COLS]
    norm_num
  · intro hc1 hocc
    have hcond : (decide (row < 0) || decide (BOARD_ROWS ≤ row) || decide (col < 1) ||
        decide (BOARD_COLS ≤ col)) = false := by
      simp only [BOARD_ROWS, BOARD_COLS] at *
      simp only [Bool.or_eq_false_iff, decide_eq_false_iff_not]
      omega
    simp only [placePlant, hplay, hp, hpd, hcond, hocc]
    norm_num

/-- A playing session with a sunflower already placed at row 0, column 1. -/
def c8St : GameState :=
  (placePlant { createGameState "p1" 0 with status := "playing" } "p1" "🌻" 0 1 3 0).2

/-- Witness for C8: in c8St, placing at the mower column (col 0) fails
with the invalid-position reason and placing onto the occupied cell (0,1)
fails with the occupied reason, the state unchanged in both cases. -/
theorem c8_place_rejects_unchanged_witness :
    (placePlant c8St "p1" "🌱" 0 0 7 5 = (.error .invalidPosition, c8St)) ∧
    (placePlant c8St "p1" "🌱" 0 1 7 5 = (.error .occupied, c8St)) :=
  ⟨(c8_place_rejects_unchanged c8St "p1" "🌱" 0 0 7 5 (by rfl) (by rfl) (by rfl)
      (by decide) (by decide) (by decide)).1 rfl,
   (c8_place_rejects_unchanged c8St "p1" "🌱" 0 1 7 5 (by rfl) (by rfl) (by rfl)
      (by decide) (by decide) (by decide)).2 (by decide) (by rfl)⟩

/-! ## Claim C9: target acquisition -/

/-- The reduce step of findZombieTarget, named for the lemmas below. -/
def closerPick (closest : Option Zombie) (z : Zombie) : Option Zombie :=
  match closest with
  | none => some z
  | some c => if z.col < c.col then some z else some c

theorem foldl_closerPick_some (l : List Zombie) :
    ∀ c : Zombie, l.foldl closerPick (some c) =
      some (match firstMinByCol l with
            | none => c
            | some m => if m.col < c.col then m else c) := by
  induction l with
  | nil => intro c; rfl
  | cons z rest ih =>
    intro c
    rw [List.foldl_cons]
    have hstep : closerPick (some c) z = some (if z.col < c.col then z else c) := by
      by_cases h : z.col < c.col <;> simp [closerPick, h]
    rw [hstep, ih]
    cases hm : firstMinByCol rest with
    | none => simp [firstMinByCol, hm]
    | some m =>
      simp only [firstMinByCol, hm]
      by_cases h1 : m.col < z.col <;> by_cases h2 : z.col < c.col <;>
        by_cases h3 : m.col < c.col <;> simp [h1, h2, h3] <;> omega

theorem findZombieTarget_eq_firstMin (plant : Plant) (zs : List Zombie) :
    findZombieTarget plant zs = firstMinByCol (zs.filter (eligibleTarget plant)) := by
  show (zs.filter (eligibleTarget plant)).foldl closerPick none = _
  cases hl : zs.filter (eligibleTarget plant) with
  | nil => rfl
  | cons z rest =>
    rw [List.foldl_cons]
    have hbase : closerPick none z = some z := rfl
    rw [hbase, foldl_closerPick_some]
    cases hm : firstMinByCol rest with
    | none => simp [firstMinByCol, hm]
    | some m => by_cases h : m.col < z.col <;> simp [firstMinByCol, hm, h]

theorem firstMinByCol_eq_none (l : List Zombie) : firstMinByCol l = none ↔ l = [] := by
  cases l with
  | nil => simp [firstMinByCol]
  | cons z rest =>
    rw [firstMinByCol]
    cases firstMinByCol rest <;> simp only [List.cons_ne_nil, iff_false] <;>
      first
      | exact fun h => Option.noConfusion h
      | (split <;> exact fun h => Option.noConfusion h)

theorem firstMinByCol_spec : ∀ (l : List Zombie) (r : Zombie), firstMinByCol l = some r →
    r ∈ l ∧ ∀ w ∈ l, r.col ≤ w.col := by
  intro l
  induction l with
  | nil => intro r h; exact absurd h (by simp [firstMinByCol])
  | cons z rest ih =>
    intro r h
    rw [firstMinByCol] at h
    cases hm : firstMinByCol rest with
    | none =>
      rw [hm] at h
      have hz : z = r := by injection h
      subst hz
      have hrest : rest = [] := (firstMinByCol_eq_none rest).mp hm
      subst hrest
      exact ⟨List.mem_cons_self _ _, by intro w hw; simp at hw; subst hw; exact le_refl _⟩
    | some m =>
      rw [hm] at h
      dsimp only at h
      obtain ⟨hmem, hmin⟩ := ih m hm
      by_cases h1 : m.col < z.col
      · rw [if_pos h1] at h
        have : m = r := by injection h
        subst this
        refine ⟨List.mem_cons_of_mem _ hmem, ?_⟩
        intro w hw
        rcases List.mem_cons.mp hw with hwz | hwr
        · subst hwz; exact le_of_lt h1
        · exact hmin w hwr
      · rw [if_neg h1] at h
        have : z = r := by injection h
        subst this
        refine ⟨List.mem_cons_self _ _, ?_⟩
        intro w hw
        rcases List.mem_cons.mp hw with hwz | hwr
        · subst hwz; exact le_refl _
        · exact le_trans (not_lt.mp h1) (hmin w hwr)

/-- Claim C9 (amended): target acquisition returns, among the attackers in
the defender's lane, alive, and with column within the defender's range
ahead of it, the one nearest the defended edge (lowest column); when two
eligible attackers are equidistant the one occurring earlier in the
attacker collection (spawn order) is returned — the function is stateless
and retains no previous target; none is returned when no attacker is
eligible. -/
theorem c9_targeting (plant : Plant) (zs : List Zombie) :
    findZombieTarget plant zs = firstMinByCol (zs.filter (eligibleTarget plant)) ∧
    (findZombieTarget plant zs = none ↔ zs.filter (eligibleTarget plant) = []) ∧
    (∀ z, findZombieTarget plant zs = some z →
      z ∈ zs ∧ eligibleTarget plant z = true ∧
      ∀ w ∈ zs, eligibleTarget plant w = true → z.col ≤ w.col) := by
  refine ⟨findZombieTarget_eq_firstMin plant zs, ?_, ?_⟩
  · rw [findZombieTarget_eq_firstMin]
    exact firstMinByCol_eq_none _
  · intro z hz
    rw [findZombieTarget_eq_firstMin] at hz
    obtain ⟨hmem, hmin⟩ := firstMinByCol_spec _ z hz
    have hz2 := List.mem_filter.mp hmem
    exact ⟨hz2.1, hz2.2, fun w hw hew => hmin w (List.mem_filter.mpr ⟨hw, hew⟩)⟩

/-- A basic zombie at a given position with a given health. -/
def mkZombie (id : Nat) (row col : Int) (h : Int) : Zombie :=
  { id := id, ztype := "🧟", row := row, col := col, x := (col : Rat), health := h,
    maxHealth := h, speed := 8, damage := 100, lastAttack := 0, attackRate := 1000,
    points := 10, effects := [], spawnedAt := 0 }

/-- A peashooter at row 0, column 1 (default range 10). -/
def c9Plant : Plant :=
  { id := 1, ptype := "🌱", row := 0, col := 1, ownerId := "p1", health := 300,
    maxHealth := 300, lastShot := 0, lastSunProduction := 0, plantedAt := 0,
    pdata := { cost := 100, health := 300, damage := some 20, fireRate := some 1400,
               projectileSpeed := some 5 } }

/-- Attacker 1 (earlier in the collection) at column 8, attacker 2 at
column 5: acquisition returns attacker 2. -/
def c9Zs1 : List Zombie := [mkZombie 1 0 8 1, mkZombie 2 0 5 1]

/-- The same two attackers after attacker 1 advanced to column 5: both
eligible and equidistant. -/
def c9Zs2 : List Zombie := [mkZombie 1 0 5 1, mkZombie 2 0 5 1]

/-- Counterexample for C9 as stated: against c9Zs1 acquisition returns
attacker 2, which is thus the defender's existing target; after attacker 1
(earlier in the collection) advances to the same column (c9Zs2), both are
eligible and equidistant, yet acquisition returns attacker 1, not the
existing target 2 — the tie is resolved by collection order, not by
retaining the current target. -/
theorem c9_counterexample :
    (findZombieTarget c9Plant c9Zs1).map (fun z => z.id) = some 2 ∧
    (findZombieTarget c9Plant c9Zs2).map (fun z => z.id) = some 1 ∧
    eligibleTarget c9Plant (mkZombie 1 0 5 1) = true ∧
    eligibleTarget c9Plant (mkZombie 2 0 5 1) = true ∧
    (mkZombie 1 0 5 1).col = (mkZombie 2 0 5 1).col :=
  ⟨rfl, rfl, rfl, rfl, rfl⟩

/-- Witness for C9 at the concrete equidistant collection. -/
theorem c9_targeting_witness :
    (findZombieTarget c9Plant c9Zs2 = firstMinByCol (c9Zs2.filter (eligibleTarget c9Plant))) ∧
    (mkZombie 1 0 5 1 ∈ c9Zs2 ∧ eligibleTarget c9Plant (mkZombie 1 0 5 1) = true ∧
      ∀ w ∈ c9Zs2, eligibleTarget c9Plant w = true → (mkZombie 1 0 5 1).col ≤ w.col) :=
  ⟨(c9_targeting c9Plant c9Zs2).1,
   (c9_targeting c9Plant c9Zs2).2.2 (mkZombie 1 0 5 1) (by rfl)⟩

/-! ## Claim C5: kill crediting -/

theorem foldl_applyEffect_fields (effs : List PEffect) (now : Int) :
    ∀ w : Zombie,
      (effs.foldl (fun a e => applyEffectToZombie a e now) w).health = w.health ∧
      (effs.foldl (fun a e => applyEffectToZombie a e now) w).points = w.points ∧
      (effs.foldl (fun a e => applyEffectToZombie a e now) w).id = w.id := by
  induction effs with
  | nil => intro w; exact ⟨rfl, rfl, rfl⟩
  | cons e rest ih =>
    intro w
    rw [List.foldl_cons]
    simpa [applyEffectToZombie] using ih (applyEffectToZombie w e now)

/-- Claim C5 (amended): when the session's only projectile hits an attacker
and the resulting health is non-positive, the kill is credited to every
player in the session — each player's score increases by the attacker's
point value and each player's kill count increments by 1 (the projectile
carries no owner identity) — and the projectile is marked removed. -/
theorem c5_kill_credits_every_player (st : GameState) (now : Int) (p : Projectile)
    (z : Zombie) (hps : st.projectiles = [p]) (hrem : p.remove = false)
    (hfind : st.zombies.find? (fun w =>
      decide (0 < w.health) && decide (ratAbs (w.x - p.x) < 1/2) && w.row == ⌊p.y⌋) = some z)
    (hdead : z.health - p.damage ≤ 0) :
    (checkCollisions st now).players = st.players.map (fun q =>
      { q with score := q.score + z.points, zombiesKilled := q.zombiesKilled + 1 }) ∧
    (checkCollisions st now).projectiles = [{ p with remove := true }] := by
  unfold checkCollisions
  rw [hps, List.foldl_cons, List.foldl_nil]
  unfold collideStep
  rw [hrem]
  simp only [Bool.false_eq_true, if_false, hfind]
  have hz1 := foldl_applyEffect_fields p.effects now { z with health := z.health - p.damage }
  have hcond : (p.effects.foldl (fun a e => applyEffectToZombie a e now)
      { z with health := z.health - p.damage }).health ≤ 0 := by
    rw [hz1.1]; exact hdead
  rw [if_pos hcond]
  unfold killZombie
  constructor
  · simp only [hz1.2.1]
  · rfl

/-- A playing session with two players (pA hosts and owns the only
defender; pB is a joiner), one attacker with 1 health at column 3 of lane
0, and one projectile (fired by pA's defender) overlapping it. -/
def c5St : GameState :=
  { createGameState "pA" 0 with
      status := "playing",
      players := [mkPlayer "pA" true, { mkPlayer "pB" false with isHost := false }],
      zombies := [mkZombie 1 0 3 1],
      projectiles := [{ id := 1, ptype := "🌱", x := 3, y := 0, targetX := 3, targetY := 0,
                        speed := 5, damage := 20, effects := [], createdAt := 0 }] }

/-- Counterexample for C5 as stated: the projectile kill in c5St credits
BOTH players — pB, who owns no defender, also gains the attacker's point
value and a kill — refuting the claim that exactly the one owning player
is credited (the projectile carries no owner identity at all). -/
theorem c5_counterexample :
    (c5St.players.map (fun q => q.zombiesKilled)) = [0, 0] ∧
    ((checkCollisions c5St 1000).players.map (fun q => q.zombiesKilled)) = [1, 1] ∧
    ((checkCollisions c5St 1000).players.map (fun q => q.score)) = [10, 10] :=
  ⟨rfl, by with_unfolding_all rfl, by with_unfolding_all rfl⟩

/-- Witness for C5 at the concrete two-player session. -/
theorem c5_kill_credits_every_player_witness :
    (checkCollisions c5St 1000).players = c5St.players.map (fun q =>
      { q with score := q.score + (mkZombie 1 0 3 1).points,
               zombiesKilled := q.zombiesKilled + 1 }) ∧
    (checkCollisions c5St 1000).projectiles =
      [{ id := 1, ptype := "🌱", x := 3, y := 0, targetX := 3, targetY := 0,
         speed := 5, damage := 20, effects := [], createdAt := 0, remove := true }] :=
  c5_kill_credits_every_player c5St 1000
    { id := 1, ptype := "🌱", x := 3, y := 0, targetX := 3, targetY := 0,
      speed := 5, damage := 20, effects := [], createdAt := 0 }
    (mkZombie 1 0 3 1) rfl rfl (by with_unfolding_all rfl) (by decide)

/-! ## Claim C6: slow effects and movement speed -/

/-- Product of the strengths of the unexpired slow effects in a list. -/
def slowFactor (effs : List ZEffect) (now : Int) : Rat :=
  (effs.filter (fun e => decide (now < e.endTime) && e.etype == "slow")).foldl
    (fun a e => a * e.strength) 1

theorem foldl_strength_mul (l : List ZEffect) :
    ∀ c : Rat, l.foldl (fun x e => x * e.strength) c =
      c * l.foldl (fun x e => x * e.strength) 1 := by
  induction l with
  | nil => intro c; simp
  | cons e rest ih =>
    intro c
    rw [List.foldl_cons, List.foldl_cons, ih (c * e.strength), ih (1 * e.strength)]
    ring

theorem updateZombieEffects_acc (now : Int) : ∀ (effs : List ZEffect) (acc : List ZEffect)
    (spd : Rat),
    effs.foldl (fun (a : List ZEffect × Rat) e =>
        if e.endTime ≤ now then a
        else (a.1 ++ [e], if e.etype == "slow" then a.2 * e.strength else a.2)) (acc, spd) =
      (acc ++ effs.filter (fun e => decide (now < e.endTime)),
        spd * slowFactor effs now) := by
  intro effs
  induction effs with
  | nil => intro acc spd; simp [slowFactor]
  | cons e rest ih =>
    intro acc spd
    rw [List.foldl_cons]
    by_cases he : e.endTime ≤ now
    · have hk2 : decide (now < e.endTime) = false := by simp; omega
      have hfil : List.filter (fun e => decide (now < e.endTime)) (e :: rest) =
          List.filter (fun e => decide (now < e.endTime)) rest := by
        rw [List.filter_cons]; simp [hk2]
      have hspd : slowFactor (e :: rest) now = slowFactor rest now := by
        unfold slowFactor
        rw [List.filter_cons]
        simp [hk2]
      rw [if_pos he, ih, hfil, hspd]
    · have hk2 : decide (now < e.endTime) = true := by simp; omega
      have hfil : List.filter (fun e => decide (now < e.endTime)) (e :: rest) =
          e :: List.filter (fun e => decide (now < e.endTime)) rest := by
        rw [List.filter_cons]; simp [hk2]
      rw [if_neg he, ih, hfil]
      by_cases hs : e.etype = "slow"
      · have hsb : (e.etype == "slow") = true := by simp [hs]
        have hspd : slowFactor (e :: rest) now = e.strength * slowFactor rest now := by
          unfold slowFactor
          rw [List.filter_cons]
          simp only [hk2, hsb, Bool.true_and, if_true]
          rw [List.foldl_cons, foldl_strength_mul]
          ring
        rw [hspd]
        refine Prod.ext ?_ ?_
        · simp
        · dsimp only
          rw [hsb]
          simp only [if_true]
          ring
      · have hsb : (e.etype == "slow") = false := by simp [hs]
        have hspd : slowFactor (e :: rest) now = slowFactor rest now := by
          unfold slowFactor
          rw [List.filter_cons]
          simp [hk2, hsb]
        rw [hspd]
        refine Prod.ext ?_ ?_
        · simp
        · dsimp only
          rw [hsb]
          simp only [Bool.false_eq_true, if_false]

/-- Claim C6 (amended): the movement computation uses the hardcoded
per-type glacial speed constant; it reads neither the stored speed field
nor the active effects, so a slow effect never changes movement and after
expiry the attacker moves at the type constant as it always did. The
effect update drops expired effects and multiplies the STORED speed field
by the strength of each surviving slow effect — a cumulative permanent
mutation of that field, repeated every tick and never reverted. -/
theorem c6_slow_semantics (z : Zombie) (now : Int) (dt : Rat) (s : Rat)
    (effs : List ZEffect) :
    ((moveZombieX z dt).x = z.x - glacialSpeed z.ztype * dt) ∧
    ((moveZombieX { z with speed := s, effects := effs } dt).x = (moveZombieX z dt).x) ∧
    ((updateZombieEffects z now).effects =
      z.effects.filter (fun e => decide (now < e.endTime))) ∧
    ((updateZombieEffects z now).speed = z.speed * slowFactor z.effects now) := by
  refine ⟨rfl, rfl, ?_, ?_⟩
  · show (z.effects.foldl _ ([], z.speed)).1 = _
    rw [updateZombieEffects_acc]
    simp
  · show (z.effects.foldl _ ([], z.speed)).2 = _
    rw [updateZombieEffects_acc]

/-- A basic zombie (stored speed 8) carrying one slow effect of strength
one half expiring at 10000. -/
def c6Z : Zombie :=
  { mkZombie 1 0 5 200 with
      effects := [{ etype := "slow", strength := 1/2, endTime := 10000 }] }

/-- The zombie after effect updates at 1000, 2000, and 20000. -/
def c6Z1 : Zombie := updateZombieEffects c6Z 1000

/-- Second effect update while the slow is still unexpired. -/
def c6Z2 : Zombie := updateZombieEffects c6Z1 2000

/-- Effect update after the slow has expired. -/
def c6Z3 : Zombie := updateZombieEffects c6Z2 20000

/-- Counterexample for C6 as stated: the stored speed field IS permanently
mutated — halved again on every tick the slow effect is active (8 to 4 to
2) and never restored after expiry (still 2, not 8) — while the movement
computation is entirely unaffected by the effect: with the slow active the
zombie still moves by the hardcoded type constant one tenth per second,
exactly as without any effect, so the slow is never applied to the speed
used in the movement calculation. -/
theorem c6_counterexample :
    c6Z1.speed = 4 ∧ c6Z2.speed = 2 ∧ c6Z3.effects = [] ∧ c6Z3.speed = 2 ∧
    ((2 : Rat) = 8 → False) ∧
    (moveZombieX c6Z1 1).x = 49/10 ∧
    (moveZombieX (mkZombie 1 0 5 200) 1).x = 49/10 := by
  refine ⟨by with_unfolding_all rfl, by with_unfolding_all rfl, by with_unfolding_all rfl,
    by with_unfolding_all rfl, by norm_num, by with_unfolding_all rfl,
    by with_unfolding_all rfl⟩

/-! ## Claim C4: pause and resume timing -/

/-- The wave manager of a session whose wave 0 (duration 30000) started at
wall time 0. -/
def c4Wm : WaveM := { currentWaveIndex := 0, waveStartTime := 0 }

/-- A playing session whose player used the sun ability at wall time 0. -/
def c4St : GameState :=
  { createGameState "p1" 0 with
      status := "playing",
      players := [{ mkPlayer "p1" true with powerups := [("☀️", 0)] }] }

/-- The session paused at 5000 and resumed at 45000 (pause lasted 40000). -/
def c4Resumed : GameState := resumeGame (pauseGame c4St 5000) 45000

/-- Counterexample for C4 as stated: after pausing 5000 into wave 0 and
resuming 40000 later, the wave manager still measures raw wall-clock
elapsed time, so at wall time 45000 — only 5000 of EFFECTIVE elapsed
time — the wave reports complete, though with no pause it is not complete
at effective offset 5000; and the ability used at time 0 (cooldown 60000)
is accepted again at wall 65000 — effective elapsed 25000 — though with no
pause it is still on cooldown at offset 25000. Wave-relative timing and
cooldowns thus fire at different effective offsets than without the pause. -/
theorem c4_counterexample :
    c4Resumed.pauseOffset = 40000 ∧
    c4Resumed.status = "playing" ∧
    effectiveElapsed 45000 c4Wm.waveStartTime c4Resumed.pauseOffset = 5000 ∧
    isWaveComplete c4Wm [] 45000 = some true ∧
    isWaveComplete c4Wm [] 5000 = some false ∧
    (usePowerup c4Resumed "p1" "☀️" 65000).1 =
      .ok { effect := "sun", amount := 100, duration := 0, cooldown := 60000 } ∧
    effectiveElapsed 65000 0 c4Resumed.pauseOffset = 25000 ∧
    (usePowerup c4St "p1" "☀️" 25000).1 = .error .onCooldown := by
  refine ⟨rfl, rfl, by decide, by decide, by decide, by with_unfolding_all rfl,
    by decide, by with_unfolding_all rfl⟩

/-- Claim C4 (amended): resuming after a pause shifts the absolute
wall-clock deadlines (sun accrual, next wave) forward by the pause
duration — preserving their effective offsets — and accumulates the
duration into the paused offset, but adjusts nothing else: the player
cooldown stamps and the wave manager's wave start time are unchanged,
while wave completion and the ability-cooldown gate compare raw wall-clock
differences that never subtract paused time, so paused time counts toward
wave progress and cooldown recovery. -/
theorem c4_pause_semantics (st : GameState) (tp tr : Int) (wm : WaveM) (zs : List Zombie)
    (now : Int) (w : WaveCfg) (pid ptype : String) (player : Player) (pu : PowerupData)
    (hw : WAVES.get? wm.currentWaveIndex = some w)
    (hplay : st.status = "playing")
    (hp : findPlayer st.players pid = some player)
    (hpu : POWERUPS.lookup ptype = some pu) :
    ((resumeGame (pauseGame st tp) tr).sunFallTimer = st.sunFallTimer + (tr - tp) ∧
     (resumeGame (pauseGame st tp) tr).nextWaveTime = st.nextWaveTime + (tr - tp) ∧
     (resumeGame (pauseGame st tp) tr).pauseOffset = st.pauseOffset + (tr - tp) ∧
     (resumeGame (pauseGame st tp) tr).players = st.players ∧
     (resumeGame (pauseGame st tp) tr).waveStartTime = st.waveStartTime) ∧
    effectiveElapsed (st.nextWaveTime + (tr - tp)) st.stats.gameStartTime
        (st.pauseOffset + (tr - tp)) =
      effectiveElapsed st.nextWaveTime st.stats.gameStartTime st.pauseOffset ∧
    (isWaveComplete wm zs now = some true ↔
      (w.duration ≤ now - wm.waveStartTime ∧ zs = [])) ∧
    ((usePowerup st pid ptype now).1 = .error .onCooldown ↔
      now - (player.powerups.lookup ptype).getD 0 < pu.cooldown) := by
  refine ⟨⟨rfl, rfl, rfl, rfl, rfl⟩, ?_, ?_, ?_⟩
  · unfold effectiveElapsed
    omega
  · unfold isWaveComplete
    rw [hw]
    simp [List.isEmpty_iff]
  · have hs : (st.status != "playing") = false := by simp [hplay]
    simp only [usePowerup, hs, Bool.false_eq_true, if_false, hp, hpu]
    by_cases hc : now - (player.powerups.lookup ptype).getD 0 < pu.cooldown
    · simp [hc]
    · simp [hc]

/-- Witness for C4 at the concrete paused session. -/
theorem c4_pause_semantics_witness :
    ((resumeGame (pauseGame c4St 5000) 45000).sunFallTimer = c4St.sunFallTimer + (45000 - 5000) ∧
     (resumeGame (pauseGame c4St 5000) 45000).nextWaveTime = c4St.nextWaveTime + (45000 - 5000) ∧
     (resumeGame (pauseGame c4St 5000) 45000).pauseOffset = c4St.pauseOffset + (45000 - 5000) ∧
     (resumeGame (pauseGame c4St 5000) 45000).players = c4St.players ∧
     (resumeGame (pauseGame c4St 5000) 45000).waveStartTime = c4St.waveStartTime) ∧
    effectiveElapsed (c4St.nextWaveTime + (45000 - 5000)) c4St.stats.gameStartTime
        (c4St.pauseOffset + (45000 - 5000)) =
      effectiveElapsed c4St.nextWaveTime c4St.stats.gameStartTime c4St.pauseOffset ∧
    (isWaveComplete c4Wm [] 30000 = some true ↔
      ((30000 : Int) ≤ 30000 - c4Wm.waveStartTime ∧ ([] : List Zombie) = [])) ∧
    ((usePowerup c4St "p1" "☀️" 30000).1 = .error .onCooldown ↔
      (30000 : Int) -
        (({ mkPlayer "p1" true with powerups := [("☀️", 0)] } : Player).powerups.lookup "☀️").getD 0 <
        (60000 : Int)) :=
  c4_pause_semantics c4St 5000 45000 c4Wm [] 30000 ⟨30000⟩ "p1" "☀️"
    { mkPlayer "p1" true with powerups := [("☀️", 0)] }
    { effect := "sun", amount := 100, duration := 0, cooldown := 60000 }
    rfl rfl rfl rfl

/-! ## Claim C1: the economy invariant -/

/-- All player balances are non-negative. -/
def sunAll (ps : List Player) : Prop := ∀ p ∈ ps, 0 ≤ p.sun

/-- Every plant carries exactly its configured parameter record. -/
def plantsWF (pls : List Plant) : Prop :=
  ∀ pl ∈ pls, PLANTS.lookup pl.ptype = some pl.pdata

/-- No two players share an id (JS objects cannot hold duplicate keys). -/
def playersUniq (ps : List Player) : Prop := (ps.map (fun p => p.id)).Nodup

/-- The session invariant carried through every engine operation. -/
def EcoInv (st : GameState) : Prop :=
  sunAll st.players ∧ plantsWF st.plants ∧ playersUniq st.players

theorem plants_sunProduction_nonneg : ∀ e ∈ PLANTS, 0 ≤ e.2.sunProduction.getD 0 := by
  decide

theorem powerups_amount_nonneg : ∀ e ∈ POWERUPS, 0 ≤ e.2.amount := by decide

theorem sunAll_map (ps : List Player) (f : Player → Player)
    (hf : ∀ p, 0 ≤ p.sun → 0 ≤ (f p).sun) (h : sunAll ps) : sunAll (ps.map f) := by
  intro q hq
  obtain ⟨p, hp, rfl⟩ := List.mem_map.mp hq
  exact hf p (h p hp)

theorem sunAll_mapPlayer (ps : List Player) (pid : String) (f : Player → Player)
    (hf : ∀ p, 0 ≤ p.sun → 0 ≤ (f p).sun) (h : sunAll ps) : sunAll (mapPlayer ps pid f) := by
  unfold mapPlayer
  apply sunAll_map
  · intro p hp
    by_cases hc : (p.id == pid) = true
    · rw [if_pos hc]; exact hf p hp
    · rw [if_neg hc]; exact hp
  · exact h

theorem idsEq_map (ps : List Player) (f : Player → Player) (hf : ∀ p, (f p).id = p.id) :
    (ps.map f).map (fun p => p.id) = ps.map (fun p => p.id) := by
  rw [List.map_map]
  exact List.map_congr_left (fun p _ => hf p)

theorem idsEq_mapPlayer (ps : List Player) (pid : String) (f : Player → Player)
    (hf : ∀ p, (f p).id = p.id) :
    (mapPlayer ps pid f).map (fun p => p.id) = ps.map (fun p => p.id) := by
  unfold mapPlayer
  apply idsEq_map
  intro p
  by_cases h : (p.id == pid) = true
  · rw [if_pos h]; exact hf p
  · rw [if_neg h]

theorem playersUniq_map (ps : List Player) (f : Player → Player)
    (hf : ∀ p, (f p).id = p.id) (h : playersUniq ps) : playersUniq (ps.map f) := by
  unfold playersUniq at *
  rw [idsEq_map ps f hf]
  exact h

theorem playersUniq_mapPlayer (ps : List Player) (pid : String) (f : Player → Player)
    (hf : ∀ p, (f p).id = p.id) (h : playersUniq ps) : playersUniq (mapPlayer ps pid f) := by
  unfold playersUniq at *
  rw [idsEq_mapPlayer ps pid f hf]
  exact h

theorem ecoInv_killZombie (s : GameState) (z : Zombie) (h : EcoInv s) :
    EcoInv (killZombie s z) := by
  obtain ⟨h1, h2, h3⟩ := h
  exact ⟨sunAll_map _ _ (fun p hp => hp) h1, h2, playersUniq_map _ _ (fun p => rfl) h3⟩

theorem ecoInv_spawnSun (s : GameState) (h : EcoInv s) : EcoInv (spawnSun s) := by
  obtain ⟨h1, h2, h3⟩ := h
  refine ⟨sunAll_map _ _ ?_ h1, h2, playersUniq_map _ _ (fun p => rfl) h3⟩
  intro p hp
  have : (0 : Int) ≤ 25 := by norm_num
  show 0 ≤ p.sun + SUN_FALL_AMOUNT
  unfold SUN_FALL_AMOUNT
  omega

theorem ecoInv_spawnZombie (s : GameState) (ztype : String) (row : Int) (fresh : Nat)
    (now : Int) (h : EcoInv s) : EcoInv (spawnZombie s ztype row fresh now) := by
  unfold spawnZombie
  cases ZOMBIES.lookup ztype with
  | none => exact h
  | some zd => exact ⟨h.1, h.2.1, h.2.2⟩

theorem ecoInv_cleanup (s : GameState) (now : Int) (h : EcoInv s) :
    EcoInv (cleanupEntities s now) :=
  ⟨h.1, h.2.1, h.2.2⟩

theorem ecoInv_triggerLawnMower (s : GameState) (row : Int) (h : EcoInv s) :
    EcoInv (triggerLawnMower s row) := by
  unfold triggerLawnMower
  cases mowerAt s row with
  | none => exact h
  | some m =>
    dsimp only
    by_cases hc : (m.active && !m.triggered) = true
    · rw [if_pos hc]
      apply foldl_preserve_mem EcoInv killZombie
      · intro s2 z _ h2
        exact ecoInv_killZombie s2 z h2
      · exact ⟨h.1, h.2.1, h.2.2⟩
    · rw [if_neg hc]
      exact h

theorem ecoInv_reachHouse (s : GameState) (zid : Nat) (h : EcoInv s) :
    EcoInv (reachHouse s zid) := by
  unfold reachHouse
  cases s.zombies.find? (fun z => z.id == zid) with
  | none => exact h
  | some z =>
    have h2 := ecoInv_triggerLawnMower s z.row h
    exact ⟨h2.1, h2.2.1, h2.2.2⟩

theorem ecoInv_placePlant (st : GameState) (pid ptype : String) (row col : Int)
    (fresh : Nat) (now : Int) (h : EcoInv st) :
    EcoInv (placePlant st pid ptype row col fresh now).2 := by
  obtain ⟨h1, h2, h3⟩ := h
  unfold placePlant
  split
  · exact ⟨h1, h2, h3⟩
  split
  · exact ⟨h1, h2, h3⟩
  next player hfind =>
  split
  · exact ⟨h1, h2, h3⟩
  next pd hpd =>
  split
  · exact ⟨h1, h2, h3⟩
  split
  · exact ⟨h1, h2, h3⟩
  split
  · exact ⟨h1, h2, h3⟩
  next hsun =>
  dsimp only
  refine ⟨?_, ?_, ?_⟩
  · intro q hq
    rw [mapPlayer] at hq
    obtain ⟨p0, hp0, hq0⟩ := List.mem_map.mp hq
    by_cases hcpid : (p0.id == pid) = true
    · rw [if_pos hcpid] at hq0
      subst hq0
      have hfind2 : st.players.find? (fun p => p.id == pid) = some player := hfind
      have hplmem : player ∈ st.players := List.mem_of_find?_eq_some hfind2
      have hplid : (player.id == pid) = true := by
        have hx := List.find?_some hfind2
        simpa using hx
      have hids : p0.id = player.id := by
        have e1 : p0.id = pid := by simpa using hcpid
        have e2 : player.id = pid := by simpa using hplid
        rw [e1, e2]
      have h3n : (st.players.map (fun p => p.id)).Nodup := h3
      have hp0eq : p0 = player := List.inj_on_of_nodup_map h3n hp0 hplmem hids
      show 0 ≤ p0.sun - pd.cost
      rw [hp0eq]
      omega
    · rw [if_neg hcpid] at hq0
      subst hq0
      exact h1 p0 hp0
  · intro pl hpl
    rcases List.mem_append.mp hpl with hin | hnew
    · exact h2 pl hin
    · have hpl2 : pl = _ := List.mem_singleton.mp hnew
      subst hpl2
      exact hpd
  · exact playersUniq_mapPlayer _ _ _ (fun p => rfl) h3

theorem ecoInv_applyPowerupEffect (st : GameState) (pid ptype : String) (pu : PowerupData)
    (now : Int) (hpu : POWERUPS.lookup ptype = some pu) (h : EcoInv st) :
    EcoInv (applyPowerupEffect st pid pu now) := by
  have hamt : 0 ≤ pu.amount := powerups_amount_nonneg _ (mem_of_lookup_eq_some hpu)
  obtain ⟨h1, h2, h3⟩ := h
  unfold applyPowerupEffect
  split
  · refine ⟨?_, h2, playersUniq_mapPlayer _ _ _ (fun p => rfl) h3⟩
    apply sunAll_mapPlayer _ _ _ ?_ h1
    intro p hp
    show 0 ≤ p.sun + pu.amount
    omega
  split
  · exact ⟨h1, h2, h3⟩
  split
  · exact ⟨h1, h2, h3⟩
  split
  · exact ⟨h1, h2, h3⟩
  exact ⟨h1, h2, h3⟩

theorem ecoInv_usePowerup (st : GameState) (pid ptype : String) (now : Int)
    (h : EcoInv st) : EcoInv (usePowerup st pid ptype now).2 := by
  obtain ⟨h1, h2, h3⟩ := h
  unfold usePowerup
  split
  · exact ⟨h1, h2, h3⟩
  split
  · exact ⟨h1, h2, h3⟩
  next player hfind =>
  split
  · exact ⟨h1, h2, h3⟩
  next pu hpu =>
  dsimp only
  split
  · exact ⟨h1, h2, h3⟩
  dsimp only
  have hply := ecoInv_applyPowerupEffect st pid ptype pu now hpu ⟨h1, h2, h3⟩
  exact ⟨sunAll_mapPlayer _ _ _ (fun p hp => hp) hply.1, hply.2.1,
    playersUniq_mapPlayer _ _ _ (fun p => rfl) hply.2.2⟩

theorem plantsWF_stampMap (pls : List Plant) (g : Plant → Plant)
    (hg : ∀ q, (g q).ptype = q.ptype ∧ (g q).pdata = q.pdata) (h : plantsWF pls) :
    plantsWF (pls.map g) := by
  intro q hq
  obtain ⟨q0, hq0, rfl⟩ := List.mem_map.mp hq
  rw [(hg q0).1, (hg q0).2]
  exact h q0 hq0

theorem ecoInv_damageZombie (s : GameState) (zid : Nat) (dmg : Int) (h : EcoInv s) :
    EcoInv (damageZombie s zid dmg) :=
  ⟨h.1, h.2.1, h.2.2⟩

theorem ecoInv_blastZombie (dmg : Int) (s : GameState) (z : Zombie) (h : EcoInv s) :
    EcoInv (blastZombie dmg s z) := by
  unfold blastZombie
  dsimp only
  by_cases hc : z.health - dmg ≤ 0
  · rw [if_pos hc]
    exact ecoInv_killZombie _ _ (ecoInv_damageZombie s z.id dmg h)
  · rw [if_neg hc]
    exact ecoInv_damageZombie s z.id dmg h

theorem ecoInv_removePlant (s : GameState) (pl : Plant) (h : EcoInv s) :
    EcoInv (removePlant s pl) := by
  refine ⟨h.1, ?_, h.2.2⟩
  intro q hq
  exact h.2.1 q (List.eraseP_subset _ hq)

theorem ecoInv_explodeCherry (s : GameState) (pl : Plant) (h : EcoInv s) :
    EcoInv (explodeCherryBomb s pl) := by
  unfold explodeCherryBomb
  apply ecoInv_removePlant
  apply foldl_preserve_mem EcoInv _ _ s ?_ h
  intro s2 z _ h2
  exact ecoInv_blastZombie _ s2 z h2

theorem ecoInv_explodeJalapeno (s : GameState) (pl : Plant) (h : EcoInv s) :
    EcoInv (explodeJalapeno s pl) := by
  unfold explodeJalapeno
  apply ecoInv_removePlant
  apply foldl_preserve_mem EcoInv _ _ s ?_ h
  intro s2 z _ h2
  exact ecoInv_blastZombie _ s2 z h2

theorem ecoInv_prodStep (now : Int) (s : GameState) (pl : Plant)
    (hwf : PLANTS.lookup pl.ptype = some pl.pdata) (h : EcoInv s) :
    EcoInv (prodStep now s pl) := by
  obtain ⟨h1, h2, h3⟩ := h
  unfold prodStep
  cases hsp : pl.pdata.sunProduction with
  | none => exact ⟨h1, h2, h3⟩
  | some sp =>
    cases hsi : pl.pdata.sunInterval with
    | none => exact ⟨h1, h2, h3⟩
    | some si =>
      dsimp only
      have hstamp : ∀ q : Plant,
          ((fun q => if q.id == pl.id then { q with lastSunProduction := now } else q) q).ptype
            = q.ptype ∧
          ((fun q => if q.id == pl.id then { q with lastSunProduction := now } else q) q).pdata
            = q.pdata := by
        intro q
        dsimp only
        by_cases hcq : (q.id == pl.id) = true
        · rw [if_pos hcq]; exact ⟨rfl, rfl⟩
        · rw [if_neg hcq]; exact ⟨rfl, rfl⟩
      by_cases hc : (pl.ptype == "🌻" && sp != 0 &&
          decide (si ≤ now - pl.lastSunProduction)) = true
      · rw [if_pos hc]
        have hsp0 : 0 ≤ sp := by
          have hx := plants_sunProduction_nonneg _ (mem_of_lookup_eq_some hwf)
          rw [hsp] at hx
          simpa using hx
        cases hfp : findPlayer s.players pl.ownerId with
        | none =>
          dsimp only
          exact ⟨h1, plantsWF_stampMap s.plants _ hstamp h2, h3⟩
        | some owner =>
          dsimp only
          refine ⟨?_, plantsWF_stampMap s.plants _ hstamp h2,
            playersUniq_mapPlayer _ _ _ (fun p => rfl) h3⟩
          apply sunAll_mapPlayer _ _ _ ?_ h1
          intro p hp
          show 0 ≤ p.sun + sp
          omega
      · rw [if_neg hc]
        exact ⟨h1, h2, h3⟩

theorem ecoInv_shootStep (now : Int) (fresh : Nat) (s : GameState) (pl : Plant)
    (h : EcoInv s) : EcoInv (shootStep now fresh s pl) := by
  obtain ⟨h1, h2, h3⟩ := h
  unfold shootStep
  cases hd : pl.pdata.damage with
  | none => exact ⟨h1, h2, h3⟩
  | some d =>
    cases hf : pl.pdata.fireRate with
    | none => exact ⟨h1, h2, h3⟩
    | some fr =>
      dsimp only
      by_cases hc : (d != 0 && decide (fr ≤ now - pl.lastShot)) = true
      · rw [if_pos hc]
        cases ht : findZombieTarget pl s.zombies with
        | none => exact ⟨h1, h2, h3⟩
        | some t =>
          dsimp only
          refine ⟨h1, ?_, h3⟩
          apply plantsWF_stampMap
          · intro q
            dsimp only
            by_cases hcq : (q.id == pl.id) = true
            · rw [if_pos hcq]; exact ⟨rfl, rfl⟩
            · rw [if_neg hcq]; exact ⟨rfl, rfl⟩
          · exact h2
      · rw [if_neg hc]
        exact ⟨h1, h2, h3⟩

theorem ecoInv_fuseStep (now : Int) (s : GameState) (pl : Plant) (h : EcoInv s) :
    EcoInv (fuseStep now s pl) := by
  unfold fuseStep
  cases hft : pl.pdata.fuseTime with
  | none => exact h
  | some ft =>
    dsimp only
    by_cases h1c : (pl.ptype == "🍒" && decide (ft ≤ now - pl.plantedAt)) = true
    · rw [if_pos h1c]
      by_cases h2c : (pl.ptype == "🌶️" && decide (ft ≤ now - pl.plantedAt)) = true
      · rw [if_pos h2c]
        exact ecoInv_explodeJalapeno _ _ (ecoInv_explodeCherry _ _ h)
      · rw [if_neg h2c]
        exact ecoInv_explodeCherry _ _ h
    · rw [if_neg h1c]
      by_cases h2c : (pl.ptype == "🌶️" && decide (ft ≤ now - pl.plantedAt)) = true
      · rw [if_pos h2c]
        exact ecoInv_explodeJalapeno _ _ h
      · rw [if_neg h2c]
        exact h

theorem ecoInv_plantStep (now : Int) (fresh : Nat) (s : GameState) (pl : Plant)
    (hwf : PLANTS.lookup pl.ptype = some pl.pdata) (h : EcoInv s) :
    EcoInv (plantStep now fresh s pl) :=
  ecoInv_fuseStep now _ pl (ecoInv_shootStep now fresh _ pl (ecoInv_prodStep now s pl hwf h))

theorem ecoInv_updatePlants (st : GameState) (now : Int) (fresh : Nat) (h : EcoInv st) :
    EcoInv (updatePlants st now fresh) := by
  have hwf := h.2.1
  unfold updatePlants
  apply foldl_preserve_mem EcoInv (plantStep now fresh) st.plants st ?_ h
  intro s2 pl hpl h2
  exact ecoInv_plantStep now fresh s2 pl (hwf pl hpl) h2

theorem ecoInv_collideStep (now : Int) (a : GameState × List Projectile) (p : Projectile)
    (h : EcoInv a.1) : EcoInv (collideStep now a p).1 := by
  unfold collideStep
  dsimp only
  by_cases hr : p.remove = true
  · rw [if_pos hr]
    exact h
  · rw [if_neg hr]
    cases hf : a.1.zombies.find? (fun z =>
        decide (0 < z.health) && decide (ratAbs (z.x - p.x) < 1/2) && z.row == ⌊p.y⌋) with
    | none => exact h
    | some z =>
      dsimp only
      split
      · apply ecoInv_killZombie
        exact ⟨h.1, h.2.1, h.2.2⟩
      · exact ⟨h.1, h.2.1, h.2.2⟩

theorem ecoInv_checkCollisions (st : GameState) (now : Int) (h : EcoInv st) :
    EcoInv (checkCollisions st now) := by
  unfold checkCollisions
  dsimp only
  have hacc := foldl_preserve_mem (fun a : GameState × List Projectile => EcoInv a.1)
    (collideStep now) st.projectiles (st, []) ?_ h
  · exact ⟨hacc.1, hacc.2.1, hacc.2.2⟩
  · intro a p _ h2
    exact ecoInv_collideStep now a p h2

theorem ecoInv_applyOp (op : Op) (st : GameState) (h : EcoInv st) : EcoInv (applyOp op st) := by
  cases op with
  | place pid ptype row col fresh now => exact ecoInv_placePlant st pid ptype row col fresh now h
  | sunFall => exact ecoInv_spawnSun st h
  | plantsTick now fresh => exact ecoInv_updatePlants st now fresh h
  | powerup pid ptype now => exact ecoInv_usePowerup st pid ptype now h
  | spawn ztype row fresh now => exact ecoInv_spawnZombie st ztype row fresh now h
  | reach zid => exact ecoInv_reachHouse st zid h
  | collide now => exact ecoInv_checkCollisions st now h
  | cleanup now => exact ecoInv_cleanup st now h

theorem trajStates_inv (P : GameState → Prop) (hstep : ∀ op st, P st → P (applyOp op st)) :
    ∀ (ops : List Op) (st : GameState), P st → ∀ s ∈ trajStates st ops, P s := by
  intro ops
  induction ops with
  | nil =>
    intro st h s hs
    rw [trajStates] at hs
    have hx : s = st := by simpa using hs
    rw [hx]
    exact h
  | cons op rest ih =>
    intro st h s hs
    rw [trajStates] at hs
    rcases List.mem_cons.mp hs with rfl | hs2
    · exact h
    · exact ih (applyOp op st) (hstep op st h) s hs2

theorem ecoInv_createGameState (hostId : String) (now : Int) :
    EcoInv (createGameState hostId now) := by
  refine ⟨?_, ?_, ?_⟩
  · intro p hp
    have hx : p = mkPlayer hostId true := by simpa [createGameState] using hp
    rw [hx]
    show (0 : Int) ≤ INITIAL_SUN
    unfold INITIAL_SUN
    norm_num
  · intro pl hpl
    simp [createGameState] at hpl
  · show ((createGameState hostId now).players.map (fun p => p.id)).Nodup
    simp [createGameState]

/-- Claim C1: the sun balance of every player is non-negative at every
state of every session run: the initial state satisfies the invariant,
every engine operation preserves it (placements only debit after the
balance check, all accruals are non-negative), and a placement whose cost
exceeds the current balance is rejected with the insufficient-resource
reason without debiting or mutating anything. -/
theorem c1_sun_never_negative :
    (∀ hostId now, EcoInv (createGameState hostId now)) ∧
    (∀ st ops, EcoInv st → ∀ s ∈ trajStates st ops, ∀ p ∈ s.players, 0 ≤ p.sun) ∧
    (∀ st pid ptype row col fresh now player pd,
      st.status = "playing" →
      findPlayer st.players pid = some player →
      PLANTS.lookup ptype = some pd →
      0 ≤ row → row < BOARD_ROWS → 1 ≤ col → col < BOARD_COLS →
      cellHasPlant st.board row col = false →
      player.sun < pd.cost →
      placePlant st pid ptype row col fresh now = (.error .notEnoughSun, st)) := by
  refine ⟨ecoInv_createGameState, ?_, ?_⟩
  · intro st ops h s hs
    exact (trajStates_inv EcoInv ecoInv_applyOp ops st h s hs).1
  · intro st pid ptype row col fresh now player pd hplay hp hpd hr0 hr1 hc1 hc2 hocc hsun
    have hcond : (decide (row < 0) || decide (BOARD_ROWS ≤ row) || decide (col < 1) ||
        decide (BOARD_COLS ≤ col)) = false := by
      simp only [BOARD_ROWS, BOARD_COLS] at *
      simp only [Bool.or_eq_false_iff, decide_eq_false_iff_not]
      omega
    simp [placePlant, hplay, hp, hpd, hcond, hocc, hsun]

/-- A playing session with the initial 50 sun. -/
def c1NoSt : GameState := { createGameState "p1" 0 with status := "playing" }

/-- Witness for C1: the initial state satisfies the invariant; after a sun
fall the player holds 75 which is non-negative; and placing a 175-cost
defender with 50 sun is rejected with the insufficient-resource reason and
an unchanged state. -/
theorem c1_sun_never_negative_witness :
    EcoInv (createGameState "p1" 0) ∧
    0 ≤ ({ mkPlayer "p1" true with sun := 75 } : Player).sun ∧
    placePlant c1NoSt "p1" "❄️" 0 1 9 0 = (.error .notEnoughSun, c1NoSt) :=
  ⟨c1_sun_never_negative.1 "p1" 0,
   c1_sun_never_negative.2.1 (createGameState "p1" 0) [Op.sunFall]
     (c1_sun_never_negative.1 "p1" 0) (spawnSun (createGameState "p1" 0))
     (List.mem_cons_of_mem _ (List.mem_cons_self _ _))
     { mkPlayer "p1" true with sun := 75 } (by decide),
   c1_sun_never_negative.2.2 c1NoSt "p1" "❄️" 0 1 9 0 (mkPlayer "p1" true)
     { cost := 175, health := 300, damage := some 20, fireRate := some 1400,
       projectileSpeed := some 5, slowEffect := some (1/2), slowDuration := some 3000 }
     rfl rfl rfl (by decide) (by decide) (by decide) (by decide) (by rfl) (by decide)⟩

/-! ## Claim C3: sweeper triggers at most once -/

/-- The triggered flag of the lane-i mower (false when absent). -/
def triggeredAt (st : GameState) (i : Nat) : Bool :=
  match st.lawnMowers.get? i with
  | some m => m.triggered
  | none => false

theorem triggeredAt_congr {s1 s2 : GameState} (h : s2.lawnMowers = s1.lawnMowers) (i : Nat) :
    triggeredAt s2 i = triggeredAt s1 i := by
  unfold triggeredAt
  rw [h]

theorem foldl_lawnMowers_eq {β : Type} (f : GameState → β → GameState)
    (hf : ∀ s b, (f s b).lawnMowers = s.lawnMowers) :
    ∀ (l : List β) (s : GameState), (l.foldl f s).lawnMowers = s.lawnMowers := by
  intro l
  induction l with
  | nil => intro s; rfl
  | cons b rest ih =>
    intro s
    rw [List.foldl_cons, ih, hf]

theorem lawnMowers_placePlant (st : GameState) (pid ptype : String) (row col : Int)
    (fresh : Nat) (now : Int) :
    (placePlant st pid ptype row col fresh now).2.lawnMowers = st.lawnMowers := by
  unfold placePlant
  split
  · rfl
  split
  · rfl
  next player hfind =>
  split
  · rfl
  next pd hpd =>
  split
  · rfl
  split
  · rfl
  split
  · rfl
  rfl

theorem lawnMowers_applyPowerupEffect (st : GameState) (pid : String) (pu : PowerupData)
    (now : Int) : (applyPowerupEffect st pid pu now).lawnMowers = st.lawnMowers := by
  unfold applyPowerupEffect
  split
  · rfl
  split
  · rfl
  split
  · rfl
  split
  · rfl
  rfl

theorem lawnMowers_usePowerup (st : GameState) (pid ptype : String) (now : Int) :
    (usePowerup st pid ptype now).2.lawnMowers = st.lawnMowers := by
  unfold usePowerup
  split
  · rfl
  split
  · rfl
  next player hfind =>
  split
  · rfl
  next pu hpu =>
  dsimp only
  split
  · rfl
  show (applyPowerupEffect st pid pu now).lawnMowers = st.lawnMowers
  exact lawnMowers_applyPowerupEffect st pid pu now

theorem lawnMowers_blastZombie (dmg : Int) (s : GameState) (z : Zombie) :
    (blastZombie dmg s z).lawnMowers = s.lawnMowers := by
  unfold blastZombie
  dsimp only
  split
  · rfl
  · rfl

theorem lawnMowers_explodeCherry (s : GameState) (pl : Plant) :
    (explodeCherryBomb s pl).lawnMowers = s.lawnMowers := by
  unfold explodeCherryBomb
  exact foldl_lawnMowers_eq _ (fun s2 z => lawnMowers_blastZombie _ s2 z) _ s

theorem lawnMowers_explodeJalapeno (s : GameState) (pl : Plant) :
    (explodeJalapeno s pl).lawnMowers = s.lawnMowers := by
  unfold explodeJalapeno
  exact foldl_lawnMowers_eq _ (fun s2 z => lawnMowers_blastZombie _ s2 z) _ s

theorem lawnMowers_prodStep (now : Int) (s : GameState) (pl : Plant) :
    (prodStep now s pl).lawnMowers = s.lawnMowers := by
  unfold prodStep
  cases pl.pdata.sunProduction with
  | none => rfl
  | some sp =>
    cases pl.pdata.sunInterval with
    | none => rfl
    | some si =>
      dsimp only
      split
      · cases findPlayer s.players pl.ownerId with
        | none => rfl
        | some owner => rfl
      · rfl

theorem lawnMowers_shootStep (now : Int) (fresh : Nat) (s : GameState) (pl : Plant) :
    (shootStep now fresh s pl).lawnMowers = s.lawnMowers := by
  unfold shootStep
  cases pl.pdata.damage with
  | none => rfl
  | some d =>
    cases pl.pdata.fireRate with
    | none => rfl
    | some fr =>
      dsimp only
      split
      · cases findZombieTarget pl s.zombies with
        | none => rfl
        | some t => rfl
      · rfl

theorem lawnMowers_fuseStep (now : Int) (s : GameState) (pl : Plant) :
    (fuseStep now s pl).lawnMowers = s.lawnMowers := by
  unfold fuseStep
  cases pl.pdata.fuseTime with
  | none => rfl
  | some ft =>
    dsimp only
    split
    · split
      · exact (lawnMowers_explodeJalapeno _ _).trans (lawnMowers_explodeCherry _ _)
      · exact lawnMowers_explodeJalapeno _ _
    · split
      · exact lawnMowers_explodeCherry _ _
      · rfl

theorem lawnMowers_plantStep (now : Int) (fresh : Nat) (s : GameState) (pl : Plant) :
    (plantStep now fresh s pl).lawnMowers = s.lawnMowers := by
  unfold plantStep
  exact ((lawnMowers_fuseStep _ _ _).trans (lawnMowers_shootStep _ _ _ _)).trans
    (lawnMowers_prodStep _ _ _)

theorem lawnMowers_updatePlants (st : GameState) (now : Int) (fresh : Nat) :
    (updatePlants st now fresh).lawnMowers = st.lawnMowers := by
  unfold updatePlants
  exact foldl_lawnMowers_eq _ (fun s2 pl => lawnMowers_plantStep now fresh s2 pl) _ st

theorem lawnMowers_collideStep (now : Int) (a : GameState × List Projectile)
    (p : Projectile) : (collideStep now a p).1.lawnMowers = a.1.lawnMowers := by
  unfold collideStep
  dsimp only
  split
  · rfl
  cases a.1.zombies.find? (fun z =>
      decide (0 < z.health) && decide (ratAbs (z.x - p.x) < 1/2) && z.row == ⌊p.y⌋) with
  | none => rfl
  | some z =>
    dsimp only
    split
    · rfl
    · rfl

theorem lawnMowers_checkCollisions (st : GameState) (now : Int) :
    (checkCollisions st now).lawnMowers = st.lawnMowers := by
  unfold checkCollisions
  dsimp only
  have hacc := foldl_preserve_mem
    (fun a : GameState × List Projectile => a.1.lawnMowers = st.lawnMowers)
    (collideStep now) st.projectiles (st, []) ?_ rfl
  · exact hacc
  · intro a p _ h2
    exact (lawnMowers_collideStep now a p).trans h2

theorem lawnMowers_spawnZombie (st : GameState) (ztype : String) (row : Int) (fresh : Nat)
    (now : Int) : (spawnZombie st ztype row fresh now).lawnMowers = st.lawnMowers := by
  unfold spawnZombie
  cases ZOMBIES.lookup ztype with
  | none => rfl
  | some zd => rfl

theorem triggeredAt_triggerLawnMower (st : GameState) (row : Int) (i : Nat)
    (h : triggeredAt st i = true) :
    triggeredAt (triggerLawnMower st row) i = true := by
  unfold triggerLawnMower
  cases hm : mowerAt st row with
  | none => exact h
  | some m =>
    dsimp only
    by_cases hc : (m.active && !m.triggered) = true
    · rw [if_pos hc]
      unfold triggeredAt
      rw [foldl_lawnMowers_eq killZombie (fun s z => rfl)]
      dsimp only
      by_cases hi : row.toNat = i
      · subst hi
        rw [List.get?_set_eq]
        have hg : st.lawnMowers.get? row.toNat = some m := by
          unfold mowerAt at hm
          by_cases hr : row < 0
          · rw [if_pos hr] at hm; cases hm
          · rw [if_neg hr] at hm; exact hm
        rw [hg]
        rfl
      · rw [List.get?_set_ne _ _ hi]
        exact h
    · rw [if_neg hc]
      exact h

theorem triggeredAt_reachHouse (st : GameState) (zid : Nat) (i : Nat)
    (h : triggeredAt st i = true) : triggeredAt (reachHouse st zid) i = true := by
  unfold reachHouse
  cases hf : st.zombies.find? (fun z => z.id == zid) with
  | none => exact h
  | some z =>
    dsimp only
    have hx : triggeredAt
        { triggerLawnMower st z.row with
            zombies := (triggerLawnMower st z.row).zombies.map (fun w =>
              if w.id == zid then { w with health := 0 } else w) } i =
        triggeredAt (triggerLawnMower st z.row) i := triggeredAt_congr rfl i
    rw [hx]
    exact triggeredAt_triggerLawnMower st z.row i h

theorem triggeredAt_mono (op : Op) (st : GameState) (i : Nat)
    (h : triggeredAt st i = true) : triggeredAt (applyOp op st) i = true := by
  cases op with
  | place pid ptype row col fresh now =>
    dsimp only [applyOp]
    rw [triggeredAt_congr (lawnMowers_placePlant st pid ptype row col fresh now) i]
    exact h
  | sunFall =>
    dsimp only [applyOp]
    rw [triggeredAt_congr (rfl : (spawnSun st).lawnMowers = st.lawnMowers) i]
    exact h
  | plantsTick now fresh =>
    dsimp only [applyOp]
    rw [triggeredAt_congr (lawnMowers_updatePlants st now fresh) i]
    exact h
  | powerup pid ptype now =>
    dsimp only [applyOp]
    rw [triggeredAt_congr (lawnMowers_usePowerup st pid ptype now) i]
    exact h
  | spawn ztype row fresh now =>
    dsimp only [applyOp]
    rw [triggeredAt_congr (lawnMowers_spawnZombie st ztype row fresh now) i]
    exact h
  | reach zid =>
    dsimp only [applyOp]
    exact triggeredAt_reachHouse st zid i h
  | collide now =>
    dsimp only [applyOp]
    rw [triggeredAt_congr (lawnMowers_checkCollisions st now) i]
    exact h
  | cleanup now =>
    dsimp only [applyOp]
    rw [triggeredAt_congr (rfl : (cleanupEntities st now).lawnMowers = st.lawnMowers) i]
    exact h

theorem trajStates_monoTrace (i : Nat) : ∀ (ops : List Op) (st : GameState),
    monoTrace ((trajStates st ops).map (fun s => triggeredAt s i)) := by
  intro ops
  induction ops with
  | nil => intro st; exact trivial
  | cons op rest ih =>
    intro st
    cases rest with
    | nil =>
      exact ⟨fun h => triggeredAt_mono op st i h, trivial⟩
    | cons op2 rest2 =>
      exact ⟨fun h => triggeredAt_mono op st i h, ih (applyOp op st)⟩

theorem foldl_kill_health (victims : List Zombie) : ∀ (s : GameState) (w : Zombie),
    w ∈ (victims.foldl killZombie s).zombies →
    (w ∈ s.zombies ∧ ∀ v ∈ victims, ¬(w.id = v.id)) ∨ w.health = 0 := by
  induction victims with
  | nil =>
    intro s w hw
    exact Or.inl ⟨hw, fun v hv => absurd hv (List.not_mem_nil v)⟩
  | cons v vs ih =>
    intro s w hw
    rw [List.foldl_cons] at hw
    rcases ih (killZombie s v) w hw with ⟨hmem, hno⟩ | hzero
    · have hmem2 : w ∈ s.zombies.map (fun w0 =>
          if w0.id == v.id then { w0 with health := 0 } else w0) := hmem
      obtain ⟨w0, hw0, hw0e⟩ := List.mem_map.mp hmem2
      by_cases hid : (w0.id == v.id) = true
      · rw [if_pos hid] at hw0e
        right
        rw [← hw0e]
      · rw [if_neg hid] at hw0e
        subst hw0e
        refine Or.inl ⟨hw0, ?_⟩
        intro u hu
        rcases List.mem_cons.mp hu with rfl | hu2
        · intro he
          exact hid (by simp [he])
        · exact hno u hu2
    · exact Or.inr hzero

theorem triggerLawnMower_fires (st : GameState) (row : Int) (m : Mower)
    (hm : mowerAt st row = some m) (ha : m.active = true) (ht : m.triggered = false) :
    mowerAt (triggerLawnMower st row) row = some { m with triggered := true } ∧
    ∀ w ∈ (triggerLawnMower st row).zombies, w.row = row → w.health ≤ 0 := by
  have hr : ¬(row < 0) := by
    unfold mowerAt at hm
    by_cases hr : row < 0
    · rw [if_pos hr] at hm; cases hm
    · exact hr
  have hg : st.lawnMowers.get? row.toNat = some m := by
    unfold mowerAt at hm
    rw [if_neg hr] at hm
    exact hm
  have hc : (m.active && !m.triggered) = true := by rw [ha, ht]; rfl
  unfold triggerLawnMower
  rw [hm]
  dsimp only
  rw [if_pos hc]
  constructor
  · unfold mowerAt
    rw [if_neg hr, foldl_lawnMowers_eq killZombie (fun s z => rfl)]
    dsimp only
    rw [List.get?_set_eq, hg]
    rfl
  · intro w hw hwrow
    rcases foldl_kill_health
        (st.zombies.filter (fun z => z.row == row && decide (0 < z.health))) _ w hw with
      ⟨hmem, hno⟩ | hzero
    · by_cases hh : 0 < w.health
      · exfalso
        have hwv : w ∈ st.zombies.filter (fun z => z.row == row && decide (0 < z.health)) := by
          apply List.mem_filter.mpr
          refine ⟨hmem, ?_⟩
          simp [hwrow, hh]
        exact hno w hwv rfl
      · omega
    · omega

theorem triggerLawnMower_inert (st : GameState) (row : Int) (m : Mower)
    (hm : mowerAt st row = some m) (ht : m.triggered = true) :
    triggerLawnMower st row = st := by
  unfold triggerLawnMower
  rw [hm]
  dsimp only
  rw [if_neg (by simp [ht])]

theorem reachHouse_inert (st : GameState) (zid : Nat) (z : Zombie) (m : Mower)
    (hf : st.zombies.find? (fun w => w.id == zid) = some z)
    (hm : mowerAt st z.row = some m) (ht : m.triggered = true) :
    reachHouse st zid =
      { st with zombies := st.zombies.map (fun w =>
          if w.id == zid then { w with health := 0 } else w) } := by
  unfold reachHouse
  rw [hf]
  dsimp only
  rw [triggerLawnMower_inert st z.row m hm ht]

/-- Claim C3: a lane sweeper goes from active to triggered at most once in
any session run — the trigger requires an untriggered mower and the flag
is never reset, so the triggered trace of any lane rises at most once over
any operation sequence; the first attacker to reach the edge of a lane
with an active untriggered sweeper triggers it, marking it triggered and
zeroing the health of every attacker alive in that lane; a triggered
sweeper is inert, and a later attacker reaching the edge of that lane is
simply removed (its health forced to 0) with no other state change. -/
theorem c3_sweeper_at_most_once :
    (∀ st row m, mowerAt st row = some m → m.active = true → m.triggered = false →
      mowerAt (triggerLawnMower st row) row = some { m with triggered := true } ∧
      ∀ w ∈ (triggerLawnMower st row).zombies, w.row = row → w.health ≤ 0) ∧
    (∀ st row m, mowerAt st row = some m → m.triggered = true →
      triggerLawnMower st row = st) ∧
    (∀ st ops i, riseCount ((trajStates st ops).map (fun s => triggeredAt s i)) ≤ 1) ∧
    (∀ st zid z m, st.zombies.find? (fun w => w.id == zid) = some z →
      mowerAt st z.row = some m → m.triggered = true →
      reachHouse st zid =
        { st with zombies := st.zombies.map (fun w =>
            if w.id == zid then { w with health := 0 } else w) }) :=
  ⟨triggerLawnMower_fires, triggerLawnMower_inert,
   fun st ops i => riseCount_le_one_of_mono _ (trajStates_monoTrace i ops st),
   reachHouse_inert⟩

/-- A playing session with two attackers in lane 0. -/
def c3St : GameState :=
  { createGameState "p1" 0 with
      status := "playing",
      zombies := [mkZombie 1 0 3 50, mkZombie 2 0 7 60] }

/-- The lane-0 mower of a fresh session. -/
def c3M0 : Mower := { row := 0, active := true, triggered := false }

/-- The session after the lane-0 sweeper has triggered. -/
def c3St2 : GameState := triggerLawnMower c3St 0

/-- Witness for C3 at the concrete two-attacker session. -/
theorem c3_sweeper_at_most_once_witness :
    (mowerAt (triggerLawnMower c3St 0) 0 = some { c3M0 with triggered := true } ∧
      ∀ w ∈ (triggerLawnMower c3St 0).zombies, w.row = 0 → w.health ≤ 0) ∧
    (triggerLawnMower c3St2 0 = c3St2) ∧
    (riseCount ((trajStates c3St [Op.reach 1, Op.reach 2]).map
      (fun s => triggeredAt s 0)) ≤ 1) ∧
    (reachHouse c3St2 2 =
      { c3St2 with zombies := c3St2.zombies.map (fun w =>
          if w.id == 2 then { w with health := 0 } else w) }) :=
  ⟨c3_sweeper_at_most_once.1 c3St 0 c3M0 (by rfl) rfl rfl,
   c3_sweeper_at_most_once.2.1 c3St2 0 { c3M0 with triggered := true } (by rfl) rfl,
   c3_sweeper_at_most_once.2.2.1 c3St [Op.reach 1, Op.reach 2] 0,
   c3_sweeper_at_most_once.2.2.2 c3St2 2 { mkZombie 2 0 7 60 with health := 0 }
     { c3M0 with triggered := true } (by rfl) (by rfl) rfl⟩
